import Mathlib

/-!
# lfsproxy: the batch-resolution pipeline

A shallow embedding of `handlers/lfs.go`, `handlers/batch.go` and `services/aws.go`.

* Go maps are association lists read through `mapLookup`.
* The in-memory cache is the key→bytes map behind `cache.Cache`; byte slices are strings.
* External collaborators (JSON codec, object store, HTTP client, URL parser) are the fields
  of `Env`: each answers as a function of its arguments.
* Every collaborator call is appended to `World.trace`; every `go f(..)` whose result is
  never awaited is appended to `World.spawned`. `PostBatch` is the handler's own run;
  `runDetached` runs the detached goroutines and `worldAtReturn` is the world when the
  handler returns, for a choice of the detached goroutines that have finished by then.
* A nil pointer dereference ends a run in `Except.error w`, with `w` the world at the panic.
-/

namespace LFSProxy

/-! ## Data model (`handlers/batch.go`) -/

/-- The action item of a `BatchObjectResponse`. `ExpiresAt` (a `time.Time`) is kept as its
RFC 3339 text. -/
structure BatchObjectActionResponse where
  Href : String
  HeadHref : String
  Header : List (String × String)
  ExpiresIn : Int
  ExpiresAt : String
deriving DecidableEq, Repr

/-- The object item of a batch request or response. `Actions` is
`map[string]*BatchObjectActionResponse`: a key may be present with a nil pointer (`none`);
a nil map and an empty map are both `[]`. -/
structure BatchObjectResponse where
  OID : String
  Size : Int
  Authenticated : Bool
  Actions : List (String × Option BatchObjectActionResponse)
deriving DecidableEq, Repr

/-- The batch request payload. The elements of `Objects` are the pointees of the Go slice
`[]*BatchObjectResponse`; nil elements are not represented. -/
structure BatchRequest where
  Operation : String
  Objects : List BatchObjectResponse
  Transfers : List String
  Ref : List (String × String)
  HashAlgo : String
deriving DecidableEq, Repr

/-- The batch response payload. As in `BatchRequest`, nil elements of `Objects` are not
represented. -/
structure BatchResponse where
  Transfer : String
  Objects : List BatchObjectResponse
deriving DecidableEq, Repr

/-! ## Go maps -/

/-- The comma-ok read `v, ok := m[k]`: `some v` when the key is present. -/
def mapLookup {β : Type} (k : String) : List (String × β) → Option β
  | [] => none
  | (k', v) :: rest => if k' = k then some v else mapLookup k rest

/-- The assignment `m[k] = v`. -/
def mapStore {β : Type} (k : String) (v : β) : List (String × β) → List (String × β)
  | [] => [(k, v)]
  | (k', v') :: rest => if k' = k then (k, v) :: rest else (k', v') :: mapStore k v rest

/-- The builtin `delete(m, k)`. -/
def mapDelete {β : Type} (k : String) (m : List (String × β)) : List (String × β) :=
  m.filter (fun e => decide (e.1 ≠ k))

/-- The comma-ok flag of `_, ok := obj.Actions[k]`. -/
def hasAction (obj : BatchObjectResponse) (k : String) : Bool :=
  (mapLookup k obj.Actions).isSome

/-- The pointer read `obj.Actions[k]`: `none` is the nil pointer, obtained when the key is
missing and when the key is present with a nil value. -/
def actionAt (obj : BatchObjectResponse) (k : String) : Option BatchObjectActionResponse :=
  (mapLookup k obj.Actions).join

/-! ## Cache (`cache/cache.go`) -/

/-- The state behind the `cache.Cache` interface: key → bytes. -/
abbrev Cache := List (String × String)

/-- The call `cache.Get(key)`: `none` is the error `ErrEntryNotFound`. -/
def Cache.Get (c : Cache) (key : String) : Option String := mapLookup key c

/-- The call `cache.Set(key, entry)`. -/
def Cache.Set (c : Cache) (key entry : String) : Cache := mapStore key entry c

/-- The call `cache.Delete(key)`. -/
def Cache.Delete (c : Cache) (key : String) : Cache := mapDelete key c

/-! ## Collaborators and effects -/

/-- The four counters of `exporter.LFSProxyCollector`. -/
structure Metrics where
  CacheHits : Nat
  CacheMiss : Nat
  S3Hits : Nat
  S3Miss : Nat
deriving DecidableEq, Repr

/-- The parts of `url.URL` the handler reads. -/
structure URL where
  Scheme : String
  Host : String
  Path : String
deriving DecidableEq, Repr

/-- The outbound request built by `getFromUpstream`; `Body` is the value that is JSON-encoded
into the request body. -/
structure UpstreamRequest where
  Method : String
  URL : URL
  Host : String
  Header : List (String × String)
  Body : BatchRequest
deriving DecidableEq, Repr

/-- The parts of `http.Response` the handler reads. -/
structure HTTPResponse where
  StatusCode : Nat
  Uncompressed : Bool
  ContentEncoding : String
  Body : String
deriving DecidableEq, Repr

/-- A collaborator call, as recorded in `World.trace`. -/
inductive Event where
  | cacheGet (key : String)
  | cacheSet (key data : String)
  | cacheDelete (key : String)
  | httpDo (req : UpstreamRequest)
  | OIDExists (oid : String)
  | GetOIDPreSignedURL (oid : String)
  | UploadOID (oid body : String)
  | httpGet (href : String)
  | httpHead (href : String)
deriving DecidableEq, Repr

/-- A detached goroutine: started with `go`, never awaited. -/
inductive Task where
  | checkCachedLink (oid headHref : String)
  | pushToS3 (obj : BatchObjectResponse) (body : String)
deriving DecidableEq, Repr

/-- The handler's mutable surroundings. -/
structure World where
  cache : Cache
  metrics : Metrics
  trace : List Event
  spawned : List Task
deriving DecidableEq, Repr

/-- Record a collaborator call. -/
def World.log (w : World) (e : Event) : World := { w with trace := w.trace ++ [e] }

/-- Record a `go f(..)` statement. -/
def World.spawn (w : World) (t : Task) : World := { w with spawned := w.spawned ++ [t] }

/-- The configuration and the external collaborators of `LFSHandler`.

* `OIDExists`, `GetOIDPreSignedURL`, `UploadOID` are the methods of `services.AWSService`,
  with Go's multiple results kept as tuples (`some e` is a non-nil error).
* `jsonMarshal` is `json.Marshal` on a `BatchObjectResponse`, which has no failing case for
  this type; `jsonUnmarshal` is `json.Unmarshal`, `none` being a decode error.
* `httpHead` returns the pair `(r, err)` of `http.DefaultClient.Head`; `r` is `none` when no
  response was produced. -/
structure Env where
  UpstreamBaseURL : String
  S3PresignEnabled : Bool
  bindJSON : String → Except String BatchRequest
  jsonMarshal : BatchObjectResponse → String
  jsonUnmarshal : String → Option BatchObjectResponse
  jsonDecodeResponse : String → Except String BatchResponse
  urlParse : String → Except String URL
  httpDo : UpstreamRequest → Except String HTTPResponse
  gzipNewReader : String → Except String String
  httpGet : String → Except String HTTPResponse
  httpHead : String → Option HTTPResponse × Option String
  OIDExists : String → Bool × Option String
  GetOIDPreSignedURL : String → String × String × Option String
  UploadOID : String → String → Option String

/-! ## `LFSHandler.cacheObjResponse` -/

/-- The method `cacheObjResponse(key, obj)`: marshal, then `cache.Set(key, data)`; both steps
succeed for the descriptors and the cache modelled here. -/
def cacheObjResponse (env : Env) (key : String) (obj : BatchObjectResponse) (w : World) : World :=
  let data := env.jsonMarshal obj
  { (w.log (.cacheSet key data)) with cache := w.cache.Set key data }

/-! ## `LFSHandler.PostBatch`, lines 74-91: the cache partition loop -/

/-- The loop variables of the partition loop. -/
structure Partition where
  world : World
  finalObjects : List BatchObjectResponse
  modifiedObjects : List BatchObjectResponse
deriving DecidableEq, Repr

/-- One iteration of `for _, object := range batchRequest.Objects`. The argument of
`go l.checkCachedLink(..)` is evaluated in the handler: a cached descriptor without a
"download" action makes `.HeadHref` a nil pointer dereference. -/
def partitionStep (env : Env) (st : Partition) (object : BatchObjectResponse) :
    Except World Partition :=
  let w1 := st.world.log (.cacheGet object.OID)
  match w1.cache.Get object.OID with
  | some data =>
    let w2 := { w1 with metrics := { w1.metrics with CacheHits := w1.metrics.CacheHits + 1 } }
    match env.jsonUnmarshal data with
    | some cached =>
      if env.S3PresignEnabled then
        match actionAt cached "download" with
        | none => .error w2
        | some a =>
          .ok { world := w2.spawn (.checkCachedLink object.OID a.HeadHref)
                finalObjects := st.finalObjects ++ [cached]
                modifiedObjects := st.modifiedObjects }
      else
        .ok { world := w2
              finalObjects := st.finalObjects ++ [cached]
              modifiedObjects := st.modifiedObjects }
    | none =>
      .ok { world := w2
            finalObjects := st.finalObjects
            modifiedObjects := st.modifiedObjects ++ [object] }
  | none =>
    let w2 := { w1 with metrics := { w1.metrics with CacheMiss := w1.metrics.CacheMiss + 1 } }
    .ok { world := w2
          finalObjects := st.finalObjects
          modifiedObjects := st.modifiedObjects ++ [object] }

/-- The whole partition loop. -/
def partitionLoop (env : Env) : List BatchObjectResponse → Partition → Except World Partition
  | [], st => .ok st
  | object :: rest, st =>
    match partitionStep env st object with
    | .error w => .error w
    | .ok st' => partitionLoop env rest st'

/-! ## `LFSHandler.getFromUpstream` -/

/-- The three results `(*BatchResponse, int, error)` of `getFromUpstream`: either a decoded
response with its status code, or a status code with a non-nil error. -/
inductive UpstreamResult where
  | ok (resp : BatchResponse) (statusCode : Nat)
  | fail (statusCode : Nat) (err : String)
deriving DecidableEq, Repr

/-- The call `strings.TrimLeft(s, "/")`. -/
def trimLeftSlash (s : String) : String := String.mk (s.toList.dropWhile (fun c => c = '/'))

/-- The test `strings.EqualFold(s, "gzip")`. -/
def equalFoldGzip (s : String) : Bool := s.toList.map Char.toLower = "gzip".toList

/-- Lines 167-173: the body `getFromUpstream` reads from the origin's response. A response
flagged as gzip is wrapped in `gzip.NewReader`, which fails on an unreadable gzip header;
the reader then yields the decompressed bytes. -/
def openBody (env : Env) (resp : HTTPResponse) : Except String String :=
  if !resp.Uncompressed && equalFoldGzip resp.ContentEncoding then
    env.gzipNewReader resp.Body
  else .ok resp.Body

/-- Lines 138-159: the request `getFromUpstream` builds. `http.NewRequestWithContext` parses
its URL argument with `url.Parse`; encoding the request body has no failing case. -/
def newUpstreamRequest (env : Env) (batchRequest : BatchRequest) (urlPath : String)
    (headers : List (String × String)) : Except String UpstreamRequest :=
  match env.urlParse env.UpstreamBaseURL with
  | .error err => .error err
  | .ok upstreamURL =>
    match env.urlParse (upstreamURL.Path ++ trimLeftSlash urlPath) with
    | .error err => .error err
    | .ok reqURL =>
      .ok { Method := "POST"
            URL := { reqURL with Scheme := upstreamURL.Scheme, Host := upstreamURL.Host }
            Host := upstreamURL.Host
            Header := headers
            Body := batchRequest }

/-- The method `getFromUpstream(ctx, batchRequest, urlPath, headers)`: the world after the
call and its results. -/
def getFromUpstream (env : Env) (batchRequest : BatchRequest) (urlPath : String)
    (headers : List (String × String)) (w : World) : World × UpstreamResult :=
  match newUpstreamRequest env batchRequest urlPath headers with
  | .error err => (w, .fail 500 err)
  | .ok req =>
    let w1 := w.log (.httpDo req)
    match env.httpDo req with
    | .error err => (w1, .fail 500 err)
    | .ok resp =>
      match openBody env resp with
      | .error err => (w1, .fail 500 err)
      | .ok respBody =>
        if resp.StatusCode ≠ 200 then (w1, .fail resp.StatusCode respBody)
        else
          match env.jsonDecodeResponse respBody with
          | .error err => (w1, .fail 500 err)
          | .ok upstreamBatchResponse => (w1, .ok upstreamBatchResponse resp.StatusCode)

/-! ## `LFSHandler.pullS3`, `pushToS3`, `checkCachedLink` -/

/-- The worker `pullS3(obj, urls)`: the world after the worker and the value it sends on `urls`, or the
world at its nil pointer dereference. `batchResp` shares its `Actions` map and the action
pointers with `obj`, so writing through `objectAction` is a write into that map. -/
def pullS3 (env : Env) (obj : BatchObjectResponse) (w : World) :
    Except World (World × BatchObjectResponse) :=
  let batchResp : BatchObjectResponse :=
    { OID := obj.OID, Size := obj.Size, Authenticated := obj.Authenticated, Actions := obj.Actions }
  let objectAction := actionAt obj "download"
  let w1 := w.log (.OIDExists obj.OID)
  match env.OIDExists obj.OID with
  | (_, some _) => .ok (w1, batchResp)
  | (true, none) =>
    let w2 := w1.log (.GetOIDPreSignedURL obj.OID)
    match env.GetOIDPreSignedURL obj.OID with
    | (_, _, some _) => .ok (w2, batchResp)
    | (url, headUrl, none) =>
      match objectAction with
      | none => .error w2
      | some a =>
        let a' : BatchObjectActionResponse := { a with Href := url, HeadHref := headUrl }
        let batchResp' : BatchObjectResponse :=
          { batchResp with Actions := mapStore "download" (some a') batchResp.Actions }
        let w3 := cacheObjResponse env obj.OID batchResp' w2
        .ok ({ w3 with metrics := { w3.metrics with S3Hits := w3.metrics.S3Hits + 1 } }, batchResp')
  | (false, none) =>
    match actionAt batchResp "download" with
    | none => .error w1
    | some a =>
      let w2 := w1.log (.httpGet a.Href)
      let w3 :=
        match env.httpGet a.Href with
        | .ok resp => if resp.StatusCode = 200 then w2.spawn (.pushToS3 obj resp.Body) else w2
        | .error _ => w2
      .ok ({ w3 with metrics := { w3.metrics with S3Miss := w3.metrics.S3Miss + 1 } }, batchResp)

/-- The backfill `pushToS3(obj, body)`: the world after the backfill, or the world at the nil pointer
dereference of `obj.Actions["download"].Header`. -/
def pushToS3 (env : Env) (obj : BatchObjectResponse) (body : String) (w : World) :
    Except World World :=
  let w1 := w.log (.UploadOID obj.OID body)
  match env.UploadOID obj.OID body with
  | some _ => .ok w1
  | none =>
    let w2 := w1.log (.GetOIDPreSignedURL obj.OID)
    match env.GetOIDPreSignedURL obj.OID with
    | (_, _, some _) => .ok w2
    | (url, headUrl, none) =>
      match actionAt obj "download" with
      | none => .error w2
      | some a =>
        let cacheResp : BatchObjectResponse :=
          { OID := obj.OID
            Size := obj.Size
            Authenticated := obj.Authenticated
            Actions := [("download", some
              { Href := url
                HeadHref := headUrl
                Header := a.Header
                ExpiresIn := a.ExpiresIn
                ExpiresAt := a.ExpiresAt })] }
        .ok (cacheObjResponse env obj.OID cacheResp w2)

/-- The validator `checkCachedLink(oid, headHref)`: `r, _ := http.DefaultClient.Head(headHref)` drops the
error, and `r.StatusCode` dereferences `r`. -/
def checkCachedLink (env : Env) (oid headHref : String) (w : World) : Except World World :=
  let w1 := w.log (.httpHead headHref)
  match (env.httpHead headHref).1 with
  | none => .error w1
  | some r =>
    if r.StatusCode ≠ 200 then
      .ok { (w1.log (.cacheDelete oid)) with cache := w1.cache.Delete oid }
    else .ok w1

/-- Run one detached goroutine. -/
def runTask (env : Env) : Task → World → Except World World
  | .checkCachedLink oid headHref, w => checkCachedLink env oid headHref w
  | .pushToS3 obj body, w => pushToS3 env obj body w

/-! ## `LFSHandler.PostBatch` -/

/-- The inbound request as the handler reads it from `gin.Context`. -/
structure GinRequest where
  Path : String
  Header : List (String × String)
  Body : String
deriving DecidableEq, Repr

/-- What the handler writes to the client. `c.JSON(code, obj)` writes the status and the
JSON rendering of `obj`. `c.AbortWithError(code, err)` is gin's
`AbortWithStatus(code)` followed by `c.Error(err)`: the status line is written, `err` is
attached to the context, and nothing is written to the body. -/
inductive Reply where
  | JSON (code : Nat) (obj : BatchResponse)
  | AbortWithError (code : Nat) (err : String)
deriving DecidableEq, Repr

/-- The HTTP status the client receives. -/
def Reply.status : Reply → Nat
  | .JSON code _ => code
  | .AbortWithError code _ => code

/-- The descriptors the client receives. -/
def Reply.objects : Reply → List BatchObjectResponse
  | .JSON _ obj => obj.Objects
  | .AbortWithError _ _ => []

/-- The response body the client receives, for a JSON renderer `render`. -/
def Reply.body (render : BatchResponse → String) : Reply → String
  | .JSON _ obj => render obj
  | .AbortWithError _ _ => ""

/-- How a run of the handler ends: it replies, it waits forever on the `urls` channel, or a
goroutine panics on a nil pointer. -/
inductive Outcome where
  | replied (r : Reply) (w : World)
  | blocked (w : World)
  | panicked (w : World)
deriving DecidableEq, Repr

/-- The world at the end of a run. -/
def Outcome.world : Outcome → World
  | .replied _ w => w
  | .blocked w => w
  | .panicked w => w

/-- The reply of a run, when there is one. -/
def Outcome.reply : Outcome → Option Reply
  | .replied r _ => some r
  | .blocked _ => none
  | .panicked _ => none

/-- The derived request of lines 59-65, with the objects the partition loop left in it. -/
def modifiedBatchRequest (batchRequest : BatchRequest) (objects : List BatchObjectResponse) :
    BatchRequest :=
  { Operation := batchRequest.Operation
    Transfers := batchRequest.Transfers
    Ref := batchRequest.Ref
    HashAlgo := batchRequest.HashAlgo
    Objects := objects }

/-- The loop variables of the dispatch loop (lines 105-119): the expected result count and
the objects handed to a `pullS3` goroutine, in dispatch order. -/
structure Dispatch where
  totalUrls : Int
  workers : List BatchObjectResponse
deriving DecidableEq, Repr

/-- The dispatch loop `for _, obj := range upstreamBatchResponse.Objects`. -/
def dispatchLoop : List BatchObjectResponse → Dispatch → Dispatch
  | [], d => d
  | obj :: rest, d =>
    if !hasAction obj "download" then
      dispatchLoop rest { d with totalUrls := d.totalUrls - 1 }
    else
      dispatchLoop rest { d with workers := d.workers ++ [obj] }

/-- Put `x` at position `i` of `l` (at the end when `i` is past it). -/
def insertAt {α : Type} (i : Nat) (x : α) (l : List α) : List α := l.take i ++ x :: l.drop i

/-- The order in which the concurrently running workers complete, chosen by the scheduler
`sched`: worker `k` is inserted at position `sched[k]` among the workers dispatched after
it. Every `sched` gives a permutation, every permutation comes from some `sched`, and the
empty `sched` gives the dispatch order. -/
def arrivalOrder {α : Type} : List Nat → List α → List α
  | _, [] => []
  | s, x :: xs => insertAt (s.headD 0) x (arrivalOrder s.tail xs)

/-- The `pullS3` goroutines, each run as one step, in completion order: the final world and
the values received from `urls`, or the world at the first panic. -/
def runWorkers (env : Env) : List BatchObjectResponse → World →
    Except World (World × List BatchObjectResponse)
  | [], w => .ok (w, [])
  | obj :: rest, w =>
    match pullS3 env obj w with
    | .error w' => .error w'
    | .ok (w', r) =>
      match runWorkers env rest w' with
      | .error w'' => .error w''
      | .ok (w'', rs) => .ok (w'', r :: rs)

/-- The collection loop `for r := range urls` (lines 121-131) over the values that will be
sent: `none` when the loop waits for a value that no goroutine sends. -/
def collectLoop (totalUrls : Int) :
    List BatchObjectResponse → List BatchObjectResponse → Int → Option (List BatchObjectResponse)
  | [], _, _ => none
  | r :: rest, objects, count =>
    if count + 1 ≥ totalUrls then some (objects ++ [r])
    else collectLoop totalUrls rest (objects ++ [r]) (count + 1)

/-- A world with the given cache and counters in which nothing has been called yet. -/
def World.init (cache : Cache) (metrics : Metrics) : World :=
  { cache := cache, metrics := metrics, trace := [], spawned := [] }

/-- The handler `PostBatch(c)`, with the completion order of its workers chosen by `sched`:
the handler's own steps and those of the workers it waits for. The goroutines it starts and
does not wait for are left in `World.spawned`; `worldAtReturn` runs them. -/
def PostBatch (env : Env) (sched : List Nat) (c : GinRequest) (w : World) : Outcome :=
  match env.bindJSON c.Body with
  | .error err => .replied (.AbortWithError 500 err) w
  | .ok batchRequest =>
    match partitionLoop env batchRequest.Objects
        { world := w, finalObjects := [], modifiedObjects := [] } with
    | .error w' => .panicked w'
    | .ok st =>
      if st.modifiedObjects.length > 0 then
        match getFromUpstream env (modifiedBatchRequest batchRequest st.modifiedObjects)
            c.Path c.Header st.world with
        | (w1, .fail statusCode err) => .replied (.AbortWithError statusCode err) w1
        | (w1, .ok upstreamBatchResponse _) =>
          let d := dispatchLoop upstreamBatchResponse.Objects
            { totalUrls := upstreamBatchResponse.Objects.length, workers := [] }
          match runWorkers env (arrivalOrder sched d.workers) w1 with
          | .error w2 => .panicked w2
          | .ok (w2, results) =>
            match collectLoop d.totalUrls results st.finalObjects 0 with
            | none => .blocked w2
            | some objects =>
              .replied (.JSON 200 { Transfer := upstreamBatchResponse.Transfer, Objects := objects }) w2
      else
        .replied (.JSON 200 { Transfer := "", Objects := st.finalObjects }) st.world

/-- The requests sent to the origin, read off a trace. -/
def upstreamCalls (t : List Event) : List UpstreamRequest :=
  t.filterMap (fun e => match e with
    | .httpDo req => some req
    | _ => none)

/-- The partition test of the claims: the cache lookup fails, or the cached bytes fail to
deserialize. -/
def unresolved (env : Env) (cache : Cache) (object : BatchObjectResponse) : Bool :=
  match cache.Get object.OID with
  | none => true
  | some data => (env.jsonUnmarshal data).isNone

/-- The descriptor the partition loop takes from the cache for `object`, if any. -/
def cachedDescriptor (env : Env) (cache : Cache) (object : BatchObjectResponse) :
    Option BatchObjectResponse :=
  (cache.Get object.OID).bind env.jsonUnmarshal

/-! ## `services/aws.go` -/

/-- An error returned by the S3 client: one that implements `awserr.Error`, with its code
and message, or any other error. -/
inductive S3Error where
  | awserr (code message : String)
  | other (message : String)
deriving DecidableEq, Repr

/-- The `AWS` service: its configuration and the three methods of its `S3` client.
`HeadObject bucket key` is the error of `s3Client.HeadObject`; `presignGetObject bucket key
expire` is `Presign(expire)` on the request built by `GetObjectRequest`, and likewise
`presignHeadObject` for `HeadObjectRequest`. -/
structure AWS where
  bucket : String
  useAccelerate : Bool
  presignEnabled : Bool
  presignExpiration : Nat
  awsRegion : String
  HeadObject : String → String → Option S3Error
  presignGetObject : String → String → Nat → Except String String
  presignHeadObject : String → String → Nat → Except String String

/-- The three results of `GetOIDPreSignedURL`, with the operations that were presigned on
the way, in order. -/
structure PreSigned where
  url : String
  headUrl : String
  err : Option String
  presigned : List String
deriving DecidableEq, Repr

/-- The method `AWS.OIDExists(oid)`. -/
def AWS.OIDExists (a : AWS) (oid : String) : Bool × Option S3Error :=
  match a.HeadObject a.bucket oid with
  | some err =>
    match err with
    | .awserr code _ => if code = "NotFound" then (false, none) else (false, some err)
    | .other _ => (false, some err)
  | none => (true, none)

/-- The method `AWS.GetOIDPreSignedURL(oid)`; `fmt.Sprintf` with `%s` verbs on strings is
concatenation. -/
def AWS.GetOIDPreSignedURL (a : AWS) (oid : String) : PreSigned :=
  if a.presignEnabled then
    match a.presignGetObject a.bucket oid a.presignExpiration with
    | .error err => { url := "", headUrl := "", err := some err, presigned := ["GetObject"] }
    | .ok urlStr =>
      match a.presignHeadObject a.bucket oid a.presignExpiration with
      | .error err =>
        { url := "", headUrl := "", err := some err, presigned := ["GetObject", "HeadObject"] }
      | .ok headUrlStr =>
        { url := urlStr, headUrl := headUrlStr, err := none
          presigned := ["GetObject", "HeadObject"] }
  else if a.useAccelerate then
    let urlStr := "https://" ++ a.bucket ++ ".s3-accelerate.amazonaws.com/" ++ oid
    { url := urlStr, headUrl := urlStr, err := none, presigned := [] }
  else
    let urlStr := "https://" ++ a.bucket ++ ".s3." ++ a.awsRegion ++ ".amazonaws.com/" ++ oid
    { url := urlStr, headUrl := urlStr, err := none, presigned := [] }

/-! ## Test doubles (`services/aws_test.go`) -/

/-- The service of the tests over `MockS3Client`: `HeadObject` succeeds for the listed
objects of "test-bucket" and answers `NotFound` otherwise; presigning always succeeds. -/
def testAWS (objectsInBucket : List String) (useAccelerate presignEnabled : Bool) : AWS :=
  { bucket := "test-bucket"
    useAccelerate := useAccelerate
    presignEnabled := presignEnabled
    presignExpiration := 3600
    awsRegion := "eu-west-1"
    HeadObject := fun bucket key =>
      if bucket = "test-bucket" ∧ key ∈ objectsInBucket then none
      else some (.awserr "NotFound" "Object not found")
    presignGetObject := fun bucket key _ => .ok ("signed-get:" ++ bucket ++ "/" ++ key)
    presignHeadObject := fun bucket key _ => .ok ("signed-head:" ++ bucket ++ "/" ++ key) }

/-- The service of the tests with a client whose `HeadObject` fails with the given error. -/
def failingAWS (err : S3Error) : AWS :=
  { testAWS [] false false with HeadObject := fun _ _ => some err }

/-- The code of an S3 error, when it is an `awserr.Error`. -/
def S3Error.code : S3Error → Option String
  | .awserr code _ => some code
  | .other _ => none

/-! ## Test doubles (`handlers/lfs_test.go`) -/

/-- The descriptor the tests put in the cache under "123". -/
def cached123 : BatchObjectResponse :=
  { OID := "123"
    Size := 123
    Authenticated := false
    Actions := [("download", some
      { Href := "https://fake-url.com"
        HeadHref := "https://fake-url.com"
        Header := [("Content-Type", "application/octet-stream")]
        ExpiresIn := 0
        ExpiresAt := "now" })] }

/-- The descriptor the mocked origin returns for "1234". -/
def origin1234 : BatchObjectResponse :=
  { OID := "1234"
    Size := 123
    Authenticated := true
    Actions := [("download", some
      { Href := "https://some-download.com"
        HeadHref := ""
        Header := [("Key", "value")]
        ExpiresIn := 0
        ExpiresAt := "2016-11-10T15:29:07Z" })] }

/-- A requested object: oid and size only. -/
def requested (oid : String) : BatchObjectResponse :=
  { OID := oid, Size := 123, Authenticated := false, Actions := [] }

/-- The request of the tests, for the given oids. -/
def testBatchRequest (oids : List String) : BatchRequest :=
  { Operation := "download"
    Objects := oids.map requested
    Transfers := ["basic"]
    Ref := [("name", "refs/heads/main")]
    HashAlgo := "sha256" }

/-- A stand-in for `json.Marshal`: the oid, the "download" href and head href. -/
def testMarshal (obj : BatchObjectResponse) : String :=
  match actionAt obj "download" with
  | some a => obj.OID ++ " " ++ a.Href ++ " " ++ a.HeadHref
  | none => obj.OID

/-- The cache of the tests: "123" holds the serialized `cached123`. -/
def testCache : Cache := [("123", testMarshal cached123)]

/-- The 200 response of the mocked origin; its body stands for the JSON of one object. -/
def originOK (body : String) : HTTPResponse :=
  { StatusCode := 200, Uncompressed := false, ContentEncoding := "", Body := body }

/-- The handler of the tests: mock cache codec, mock `AWSService` over `urls`, and an origin
that answers every request with `origin`. Request bodies are `"123"`, `"123,1234"`, ..;
origin bodies are `"1234"` (one object with a download action), `"upload"` (one object
without one), `"null"` (one object whose "download" key holds null) and `"none"`. -/
def testEnv (presign : Bool) (urls : List (String × String))
    (origin : Except String HTTPResponse) : Env :=
  { UpstreamBaseURL := "https://fake-git-server.com/repository.git/"
    S3PresignEnabled := presign
    bindJSON := fun body =>
      if body = "123" then .ok (testBatchRequest ["123"])
      else if body = "1234" then .ok (testBatchRequest ["1234"])
      else if body = "123,1234" then .ok (testBatchRequest ["123", "1234"])
      else if body = "1234,5678" then .ok (testBatchRequest ["1234", "5678"])
      else .error "invalid request"
    jsonMarshal := testMarshal
    jsonUnmarshal := fun data =>
      if data = testMarshal cached123 then some cached123
      else none
    jsonDecodeResponse := fun body =>
      if body = "1234" then .ok { Transfer := "basic", Objects := [origin1234] }
      else if body = "1234,upload" then
        .ok { Transfer := "basic", Objects := [origin1234, requested "5678"] }
      else if body = "upload" then .ok { Transfer := "basic", Objects := [requested "1234"] }
      else if body = "null" then
        .ok { Transfer := "basic", Objects := [{ requested "1234" with Actions := [("download", none)] }] }
      else if body = "none" then .ok { Transfer := "basic", Objects := [] }
      else .error "invalid response"
    urlParse := fun raw =>
      if raw = "https://fake-git-server.com/repository.git/" then
        .ok { Scheme := "https", Host := "fake-git-server.com", Path := "/repository.git/" }
      else .ok { Scheme := "", Host := "", Path := raw }
    httpDo := fun _ => origin
    gzipNewReader := fun _ => .error "gzip: invalid header"
    httpGet := fun href =>
      if href = "https://some-download.com" then .ok (originOK "") else .error "no responder"
    httpHead := fun _ => (none, some "no responder")
    OIDExists := fun oid => ((mapLookup oid urls).isSome, none)
    GetOIDPreSignedURL := fun oid => ((mapLookup oid urls).getD "", (mapLookup oid urls).getD "", none)
    UploadOID := fun _ _ => none }

/-- The inbound request of the tests with the given body. -/
def testRequest (body : String) : GinRequest :=
  { Path := "/objects/batch"
    Header := [("Content-Type", "application/vnd.git-lfs+json")]
    Body := body }

/-- Counters at zero. -/
def noMetrics : Metrics := { CacheHits := 0, CacheMiss := 0, S3Hits := 0, S3Miss := 0 }

/-- The request the handler of the tests forwards for the body `"123,1234"` when "123" is
cached: only "1234" is left in it. -/
def forwarded1234 : UpstreamRequest :=
  { Method := "POST"
    URL := { Scheme := "https", Host := "fake-git-server.com", Path := "/repository.git/objects/batch" }
    Host := "fake-git-server.com"
    Header := [("Content-Type", "application/vnd.git-lfs+json")]
    Body := modifiedBatchRequest (testBatchRequest ["123", "1234"]) [requested "1234"] }

/-- The cached descriptors the partition loop can pass to `checkCachedLink`: when
presigning is enabled, each carries a non-null "download" action. -/
def validatable (env : Env) (cache : Cache) (objects : List BatchObjectResponse) : Prop :=
  env.S3PresignEnabled = true →
    ∀ o ∈ objects, ∀ d, cachedDescriptor env cache o = some d → (actionAt d "download").isSome

/-- The origin response of scenario D: status 403, body "access denied". -/
def originDenied : HTTPResponse :=
  { StatusCode := 403, Uncompressed := false, ContentEncoding := "", Body := "access denied" }

/-- A stand-in for the JSON rendering of a response: its serialized objects, in order. -/
def testRender (resp : BatchResponse) : String :=
  resp.Objects.foldl (fun acc o => acc ++ testMarshal o ++ ";") resp.Transfer

/-- The cache writes (`Set`, `Delete`) recorded in a trace. -/
def cacheWrites (t : List Event) : List Event :=
  t.filter (fun e => match e with
    | .cacheSet _ _ => true
    | .cacheDelete _ => true
    | _ => false)

/-- The descriptor `pullS3` emits for an object found in the store: `obj` with the href and
head href of its "download" action `a` replaced. -/
def storeResolved (obj : BatchObjectResponse) (a : BatchObjectActionResponse)
    (url headUrl : String) : BatchObjectResponse :=
  { obj with
    Actions := (mapStore "download" (some { a with Href := url, HeadHref := headUrl }) obj.Actions) }

/-- The descriptor `pushToS3` caches after a backfill of `obj`, whose "download" action is
`a`. -/
def backfilled (obj : BatchObjectResponse) (a : BatchObjectActionResponse)
    (url headUrl : String) : BatchObjectResponse :=
  { OID := obj.OID
    Size := obj.Size
    Authenticated := obj.Authenticated
    Actions := [("download", some
      { Href := url
        HeadHref := headUrl
        Header := a.Header
        ExpiresIn := a.ExpiresIn
        ExpiresAt := a.ExpiresAt })] }

/-- An origin descriptor whose download href no longer answers. -/
def originGone : BatchObjectResponse :=
  { OID := "1234"
    Size := 123
    Authenticated := true
    Actions := [("download", some
      { Href := "https://gone.example"
        HeadHref := ""
        Header := []
        ExpiresIn := 0
        ExpiresAt := "2016-11-10T15:29:07Z" })] }

/-- The "download" action of `origin1234`. -/
def origin1234Download : BatchObjectActionResponse :=
  { Href := "https://some-download.com"
    HeadHref := ""
    Header := [("Key", "value")]
    ExpiresIn := 0
    ExpiresAt := "2016-11-10T15:29:07Z" }

/-- The mock store of the test "with URLs from S3". -/
def s3Urls : List (String × String) := [("1234", "https://this-is-from-s3.com")]

/-- The handler of the tests with a store whose existence check fails. -/
def storeDownEnv : Env :=
  { testEnv false [] (.ok (originOK "1234")) with
    OIDExists := fun _ => (false, some "RequestError: send request failed") }

/-- The handler of the tests with presigning enabled and a probe target that answers every
`HEAD` with the given status. -/
def probeEnv (status : Nat) : Env :=
  { testEnv true [] (.ok (originOK "1234")) with
    httpHead := fun _ =>
      (some { StatusCode := status, Uncompressed := false, ContentEncoding := "", Body := "" },
        none) }

/-- The 4xx class of HTTP status codes. -/
def isClientError (code : Nat) : Bool := decide (400 ≤ code ∧ code < 500)

/-- An origin descriptor whose "download" key holds null. -/
def originNull : BatchObjectResponse :=
  { OID := "1234", Size := 123, Authenticated := false, Actions := [("download", none)] }

/-- The descriptor `pullS3` sends for `obj`, if it sends one, read off a run in an empty
world; `pullS3` never reads the world to build it. -/
def emitted (env : Env) (obj : BatchObjectResponse) : Option BatchObjectResponse :=
  (pullS3 env obj (World.init [] noMetrics)).toOption.map Prod.snd

/-- Remove the trailing "/" characters of a path. -/
def trimRightSlash (s : String) : String :=
  String.mk (s.toList.reverse.dropWhile (fun c => c = '/')).reverse

/-- The join of C16: the base path and the request path with exactly one "/" between
them. -/
def joinedPath (basePath urlPath : String) : String :=
  trimRightSlash basePath ++ "/" ++ trimLeftSlash urlPath

/-- The handler of the tests configured with a base URL that has no trailing "/". -/
def noSlashEnv : Env :=
  { testEnv false [] (.ok (originOK "1234")) with
    UpstreamBaseURL := "https://fake-git-server.com/repository.git"
    urlParse := fun raw =>
      if raw = "https://fake-git-server.com/repository.git" then
        .ok { Scheme := "https", Host := "fake-git-server.com", Path := "/repository.git" }
      else .ok { Scheme := "", Host := "", Path := raw } }

/-- The cache states the proxy produces: every entry is the serialization of a descriptor
that carries a non-null "download" action. It holds of the empty cache the handler starts
with and is kept by every cache write of `pullS3`, `pushToS3` and `checkCachedLink`. -/
def cacheWritten (env : Env) (cache : Cache) : Prop :=
  ∀ key data, cache.Get key = some data →
    ∃ d, data = env.jsonMarshal d ∧ (actionAt d "download").isSome

/-- The descriptor whose backfill leaves `cached123` in the cache. -/
def origin123 : BatchObjectResponse :=
  { OID := "123"
    Size := 123
    Authenticated := false
    Actions := [("download", some
      { Href := "https://origin.example/123"
        HeadHref := ""
        Header := [("Content-Type", "application/octet-stream")]
        ExpiresIn := 0
        ExpiresAt := "now" })] }

/-! ## Detached goroutines -/

/-- Run, in the order they were started, the detached goroutines that the schedule `done`
lets finish: the k-th started task runs when `done` holds `true` at position k. A panic of
one of them ends the run. -/
def runDetached (env : Env) : List Bool → List Task → World → Except World World
  | _, [], w => .ok w
  | done, t :: rest, w =>
    if done.headD false then
      match runTask env t w with
      | .error w' => .error w'
      | .ok w' => runDetached env done.tail rest w'
    else runDetached env done.tail rest w

/-- The world at the moment the handler returns, in a run where the detached goroutines
selected by `done` have finished by then. The validators are started in the partition loop
(line 81), before the upstream call (line 95), so they can finish while the handler waits
for the origin. -/
def worldAtReturn (env : Env) (sched : List Nat) (done : List Bool) (c : GinRequest)
    (w : World) : Except World World :=
  runDetached env done (PostBatch env sched c w).world.spawned (PostBatch env sched c w).world

/-- The validators the partition loop starts: with presigning enabled, one
`checkCachedLink` per requested object found in the cache, on that object's oid. -/
def isValidatorFor (env : Env) (cache : Cache) (objects : List BatchObjectResponse)
    (t : Task) : Prop :=
  env.S3PresignEnabled = true ∧
    ∃ o ∈ objects, ∃ headHref, t = .checkCachedLink o.OID headHref ∧
      (cachedDescriptor env cache o).isSome

/-- The handler of the tests with presigning enabled, an origin that answers 403 and cached
links that answer 403 to the probe. -/
def staleEnv : Env :=
  { testEnv true [] (.ok originDenied) with
    httpHead := fun _ =>
      (some { StatusCode := 403, Uncompressed := false, ContentEncoding := "", Body := "" },
        none) }

/-! ## Lemmas: traces -/

theorem upstreamCalls_append (a b : List Event) :
    upstreamCalls (a ++ b) = upstreamCalls a ++ upstreamCalls b := by
  simp [upstreamCalls, List.filterMap_append]

theorem unresolved_eq (env : Env) (cache : Cache) (object : BatchObjectResponse) :
    unresolved env cache object = (cachedDescriptor env cache object).isNone := by
  unfold unresolved cachedDescriptor
  cases cache.Get object.OID <;> simp

/-! ## Lemmas: maps and the cache -/

theorem mapLookup_mapStore_self {β : Type} (k : String) (v : β) (m : List (String × β)) :
    mapLookup k (mapStore k v m) = some v := by
  induction m with
  | nil => simp [mapStore, mapLookup]
  | cons e rest ih =>
    obtain ⟨k', v'⟩ := e
    by_cases h : k' = k
    · simp [mapStore, mapLookup, h]
    · simp [mapStore, mapLookup, h, ih]

theorem mapLookup_mapStore_other {β : Type} (k k' : String) (v : β) (m : List (String × β))
    (hne : k' ≠ k) : mapLookup k' (mapStore k v m) = mapLookup k' m := by
  induction m with
  | nil =>
    have : ¬ k = k' := fun h => hne h.symm
    simp [mapStore, mapLookup, this]
  | cons e rest ih =>
    obtain ⟨k₁, v₁⟩ := e
    by_cases h : k₁ = k
    · subst h
      have : ¬ k₁ = k' := fun h => hne h.symm
      simp [mapStore, mapLookup, this]
    · by_cases h2 : k₁ = k'
      · subst h2
        simp [mapStore, mapLookup, h]
      · simp [mapStore, mapLookup, h, h2, ih]

theorem mapLookup_mapDelete_self {β : Type} (k : String) (m : List (String × β)) :
    mapLookup k (mapDelete k m) = none := by
  induction m with
  | nil => rfl
  | cons e rest ih =>
    obtain ⟨k', v'⟩ := e
    by_cases h : k' = k
    · simpa [mapDelete, List.filter_cons, h] using ih
    · simpa [mapDelete, List.filter_cons, h, mapLookup] using ih

theorem mapLookup_mapDelete_other {β : Type} (k k' : String) (m : List (String × β))
    (hne : k' ≠ k) : mapLookup k' (mapDelete k m) = mapLookup k' m := by
  induction m with
  | nil => rfl
  | cons e rest ih =>
    obtain ⟨k₁, v₁⟩ := e
    by_cases h : k₁ = k
    · subst h
      have h2 : ¬ k₁ = k' := fun h => hne h.symm
      simpa [mapDelete, List.filter_cons, mapLookup, h2] using ih
    · by_cases h2 : k₁ = k'
      · subst h2
        simp [mapDelete, List.filter_cons, h, mapLookup]
      · simpa [mapDelete, List.filter_cons, h, mapLookup, h2] using ih

theorem cacheWrites_append (a b : List Event) :
    cacheWrites (a ++ b) = cacheWrites a ++ cacheWrites b := by
  simp [cacheWrites, List.filter_append]

/-! ## Lemmas: the partition loop -/

theorem partitionStep_ok {env : Env} {st st' : Partition} {object : BatchObjectResponse}
    (h : partitionStep env st object = .ok st') :
    st'.world.cache = st.world.cache ∧
    upstreamCalls st'.world.trace = upstreamCalls st.world.trace ∧
    st'.modifiedObjects =
      st.modifiedObjects ++ [object].filter (unresolved env st.world.cache) ∧
    st'.finalObjects =
      st.finalObjects ++ [object].filterMap (cachedDescriptor env st.world.cache) := by
  unfold partitionStep at h
  simp only [World.log] at h
  cases hg : st.world.cache.Get object.OID with
  | none =>
    simp only [hg] at h
    injection h with h
    subst h
    simp [unresolved, cachedDescriptor, hg, upstreamCalls_append, upstreamCalls]
  | some data =>
    simp only [hg] at h
    cases hu : env.jsonUnmarshal data with
    | none =>
      simp only [hu] at h
      injection h with h
      subst h
      simp [unresolved, cachedDescriptor, hg, hu, upstreamCalls_append, upstreamCalls]
    | some cached =>
      simp only [hu] at h
      by_cases hp : env.S3PresignEnabled = true
      · simp only [hp, if_true] at h
        cases ha : actionAt cached "download" with
        | none => simp [ha] at h
        | some a =>
          simp only [ha] at h
          injection h with h
          subst h
          simp [unresolved, cachedDescriptor, hg, hu, upstreamCalls_append, upstreamCalls,
            World.spawn]
      · simp only [hp] at h
        injection h with h
        subst h
        simp [unresolved, cachedDescriptor, hg, hu, upstreamCalls_append, upstreamCalls]

theorem partitionStep_error {env : Env} {st : Partition} {object : BatchObjectResponse}
    {w : World} (h : partitionStep env st object = .error w) :
    w.cache = st.world.cache ∧ upstreamCalls w.trace = upstreamCalls st.world.trace := by
  unfold partitionStep at h
  simp only [World.log] at h
  cases hg : st.world.cache.Get object.OID with
  | none => simp [hg] at h
  | some data =>
    simp only [hg] at h
    cases hu : env.jsonUnmarshal data with
    | none => simp [hu] at h
    | some cached =>
      simp only [hu] at h
      by_cases hp : env.S3PresignEnabled = true
      · simp only [hp, if_true] at h
        cases ha : actionAt cached "download" with
        | none =>
          simp only [ha] at h
          injection h with h
          subst h
          simp [upstreamCalls_append, upstreamCalls]
        | some a => simp [ha] at h
      · simp [hp] at h

theorem partitionLoop_ok (env : Env) (objects : List BatchObjectResponse) :
    ∀ (st st' : Partition), partitionLoop env objects st = .ok st' →
      st'.world.cache = st.world.cache ∧
      upstreamCalls st'.world.trace = upstreamCalls st.world.trace ∧
      st'.modifiedObjects =
        st.modifiedObjects ++ objects.filter (unresolved env st.world.cache) ∧
      st'.finalObjects =
        st.finalObjects ++ objects.filterMap (cachedDescriptor env st.world.cache) := by
  induction objects with
  | nil =>
    intro st st' h
    simp only [partitionLoop] at h
    injection h with h
    subst h
    simp
  | cons object rest ih =>
    intro st st' h
    simp only [partitionLoop] at h
    cases hs : partitionStep env st object with
    | error w => simp [hs] at h
    | ok st1 =>
      simp only [hs] at h
      obtain ⟨hc1, ht1, hm1, hf1⟩ := partitionStep_ok hs
      obtain ⟨hc, ht, hm, hf⟩ := ih st1 st' h
      refine ⟨hc.trans hc1, ht.trans ht1, ?_, ?_⟩
      · rw [hm, hm1, hc1, List.append_assoc, ← List.filter_append]
        rfl
      · rw [hf, hf1, hc1, List.append_assoc, ← List.filterMap_append]
        rfl

theorem partitionLoop_error (env : Env) (objects : List BatchObjectResponse) :
    ∀ (st : Partition) (w : World), partitionLoop env objects st = .error w →
      w.cache = st.world.cache ∧ upstreamCalls w.trace = upstreamCalls st.world.trace := by
  induction objects with
  | nil =>
    intro st w h
    simp [partitionLoop] at h
  | cons object rest ih =>
    intro st w h
    simp only [partitionLoop] at h
    cases hs : partitionStep env st object with
    | error w1 =>
      simp only [hs] at h
      injection h with h
      subst h
      exact partitionStep_error hs
    | ok st1 =>
      simp only [hs] at h
      obtain ⟨hc1, ht1, _, _⟩ := partitionStep_ok hs
      obtain ⟨hc, ht⟩ := ih st1 w h
      exact ⟨hc.trans hc1, ht.trans ht1⟩

theorem partitionStep_total {env : Env} (st : Partition) (object : BatchObjectResponse)
    (hv : validatable env st.world.cache [object]) :
    ∃ st', partitionStep env st object = .ok st' := by
  unfold partitionStep
  simp only [World.log]
  cases hg : st.world.cache.Get object.OID with
  | none => exact ⟨_, rfl⟩
  | some data =>
    cases hu : env.jsonUnmarshal data with
    | none =>
      simp only [hu]
      exact ⟨_, rfl⟩
    | some cached =>
      by_cases hp : env.S3PresignEnabled = true
      · have hd : cachedDescriptor env st.world.cache object = some cached := by
          simp [cachedDescriptor, hg, hu]
        have ha := hv hp object (List.mem_singleton.mpr rfl) cached hd
        cases hact : actionAt cached "download" with
        | none => simp [hact] at ha
        | some a =>
          simp only [hu, hp, if_true, hact]
          exact ⟨_, rfl⟩
      · simp only [hu, hp]
        exact ⟨_, rfl⟩

theorem partitionLoop_total (env : Env) (objects : List BatchObjectResponse) :
    ∀ (st : Partition), validatable env st.world.cache objects →
      ∃ st', partitionLoop env objects st = .ok st' := by
  induction objects with
  | nil =>
    intro st _
    exact ⟨st, rfl⟩
  | cons object rest ih =>
    intro st hv
    have hv1 : validatable env st.world.cache [object] := by
      intro hp o ho d hd
      rw [List.mem_singleton] at ho
      subst ho
      exact hv hp o (List.mem_cons_self _ _) d hd
    obtain ⟨st1, hs⟩ := partitionStep_total st object hv1
    have hc := (partitionStep_ok hs).1
    have hv2 : validatable env st1.world.cache rest := by
      intro hp o ho d hd
      rw [hc] at hd
      exact hv hp o (List.mem_cons_of_mem _ ho) d hd
    obtain ⟨st', hl⟩ := ih st1 hv2
    exact ⟨st', by simp only [partitionLoop, hs, hl]⟩

/-! ## Lemmas: the upstream call -/

theorem newUpstreamRequest_body {env : Env} {br : BatchRequest} {urlPath : String}
    {headers : List (String × String)} {req : UpstreamRequest}
    (h : newUpstreamRequest env br urlPath headers = .ok req) : req.Body = br := by
  unfold newUpstreamRequest at h
  split at h
  · simp at h
  · split at h
    · simp at h
    · injection h with h
      subst h
      rfl

theorem getFromUpstream_world (env : Env) (br : BatchRequest) (urlPath : String)
    (headers : List (String × String)) (w : World) :
    (getFromUpstream env br urlPath headers w).1 = w ∨
    ∃ q : UpstreamRequest, q.Body = br ∧
      (getFromUpstream env br urlPath headers w).1 = w.log (.httpDo q) := by
  unfold getFromUpstream
  cases hreq : newUpstreamRequest env br urlPath headers with
  | error err => exact Or.inl rfl
  | ok req =>
    have hbody := newUpstreamRequest_body hreq
    dsimp only
    split
    · exact Or.inr ⟨_, hbody, rfl⟩
    · split
      · exact Or.inr ⟨_, hbody, rfl⟩
      · split
        · exact Or.inr ⟨_, hbody, rfl⟩
        · split <;> exact Or.inr ⟨_, hbody, rfl⟩

theorem getFromUpstream_cache (env : Env) (br : BatchRequest) (urlPath : String)
    (headers : List (String × String)) (w : World) :
    (getFromUpstream env br urlPath headers w).1.cache = w.cache ∧
    (getFromUpstream env br urlPath headers w).1.spawned = w.spawned := by
  rcases getFromUpstream_world env br urlPath headers w with h | ⟨q, _, h⟩
  · rw [h]
    exact ⟨rfl, rfl⟩
  · rw [h]
    exact ⟨rfl, rfl⟩

theorem getFromUpstream_calls (env : Env) (br : BatchRequest) (urlPath : String)
    (headers : List (String × String)) (w : World) (r : UpstreamRequest)
    (hr : r ∈ upstreamCalls (getFromUpstream env br urlPath headers w).1.trace) :
    r ∈ upstreamCalls w.trace ∨ r.Body = br := by
  rcases getFromUpstream_world env br urlPath headers w with h | ⟨q, hq, h⟩
  · rw [h] at hr
    exact Or.inl hr
  · rw [h] at hr
    simp only [World.log, upstreamCalls_append, List.mem_append] at hr
    rcases hr with hr | hr
    · exact Or.inl hr
    · simp only [upstreamCalls, List.filterMap_cons, List.filterMap_nil,
        List.mem_singleton] at hr
      exact Or.inr (hr ▸ hq)

/-! ## Lemmas: the workers -/

theorem cacheObjResponse_calls (env : Env) (key : String) (obj : BatchObjectResponse)
    (w : World) : upstreamCalls (cacheObjResponse env key obj w).trace = upstreamCalls w.trace := by
  simp [cacheObjResponse, World.log, upstreamCalls_append, upstreamCalls]

theorem pullS3_calls (env : Env) (obj : BatchObjectResponse) (w : World) :
    (∀ w' r, pullS3 env obj w = .ok (w', r) → upstreamCalls w'.trace = upstreamCalls w.trace) ∧
    (∀ w', pullS3 env obj w = .error w' → upstreamCalls w'.trace = upstreamCalls w.trace) := by
  unfold pullS3
  simp only [World.log]
  constructor
  · intro w' r h
    split at h
    · injection h with h; injection h with h1 h2; subst h1
      simp [upstreamCalls_append, upstreamCalls]
    · split at h
      · injection h with h; injection h with h1 h2; subst h1
        simp [upstreamCalls_append, upstreamCalls]
      · split at h
        · simp at h
        · injection h with h; injection h with h1 h2; subst h1
          simp [cacheObjResponse, World.log, upstreamCalls_append, upstreamCalls]
    · split at h
      · simp at h
      · injection h with h; injection h with h1 h2; subst h1
        simp only
        split
        · split <;> simp [World.spawn, upstreamCalls_append, upstreamCalls]
        · simp [upstreamCalls_append, upstreamCalls]
  · intro w' h
    split at h
    · simp at h
    · split at h
      · simp at h
      · split at h
        · injection h with h; subst h
          simp [upstreamCalls_append, upstreamCalls]
        · simp at h
    · split at h
      · injection h with h; subst h
        simp [upstreamCalls_append, upstreamCalls]
      · simp at h

theorem runWorkers_calls (env : Env) (objs : List BatchObjectResponse) :
    ∀ (w : World),
      (∀ w' rs, runWorkers env objs w = .ok (w', rs) →
        upstreamCalls w'.trace = upstreamCalls w.trace) ∧
      (∀ w', runWorkers env objs w = .error w' →
        upstreamCalls w'.trace = upstreamCalls w.trace) := by
  induction objs with
  | nil =>
    intro w
    constructor
    · intro w' rs h
      simp only [runWorkers] at h
      injection h with h; injection h with h1 h2; subst h1; rfl
    · intro w' h
      simp [runWorkers] at h
  | cons obj rest ih =>
    intro w
    obtain ⟨pok, perr⟩ := pullS3_calls env obj w
    constructor
    · intro w' rs h
      simp only [runWorkers] at h
      cases hp : pullS3 env obj w with
      | error w1 => simp [hp] at h
      | ok p =>
        obtain ⟨w1, r⟩ := p
        simp only [hp] at h
        cases hr : runWorkers env rest w1 with
        | error w2 => simp [hr] at h
        | ok q =>
          obtain ⟨w2, rs2⟩ := q
          simp only [hr] at h
          injection h with h; injection h with h1 h2; subst h1
          exact ((ih w1).1 w2 rs2 hr).trans (pok w1 r hp)
    · intro w' h
      simp only [runWorkers] at h
      cases hp : pullS3 env obj w with
      | error w1 =>
        simp only [hp] at h
        injection h with h; subst h
        exact perr w1 hp
      | ok p =>
        obtain ⟨w1, r⟩ := p
        simp only [hp] at h
        cases hr : runWorkers env rest w1 with
        | error w2 =>
          simp only [hr] at h
          injection h with h; subst h
          exact ((ih w1).2 w2 hr).trans (pok w1 r hp)
        | ok q => simp [hr] at h

/-! ## Lemmas: dispatch, scheduling, collection -/

theorem getFromUpstream_result (env : Env) (br : BatchRequest) (urlPath : String)
    (headers : List (String × String)) (w w' : World) :
    (getFromUpstream env br urlPath headers w).2 = (getFromUpstream env br urlPath headers w').2 := by
  unfold getFromUpstream
  split
  · rfl
  · dsimp only
    split
    · rfl
    · split
      · rfl
      · split
        · rfl
        · split <;> rfl

theorem dispatchLoop_eq (objs : List BatchObjectResponse) :
    ∀ d : Dispatch, dispatchLoop objs d =
      { totalUrls := d.totalUrls - (objs.filter (fun o => !hasAction o "download")).length
        workers := d.workers ++ objs.filter (fun o => hasAction o "download") } := by
  induction objs with
  | nil =>
    intro d
    simp [dispatchLoop]
  | cons obj rest ih =>
    intro d
    simp only [dispatchLoop]
    by_cases h : hasAction obj "download" = true
    · simp only [h, Bool.not_true, Bool.false_eq_true, if_false, ih, List.filter_cons,
        if_true, List.append_assoc, List.singleton_append]
    · simp only [Bool.not_eq_true] at h
      simp only [h, Bool.not_false, if_true, ih, List.filter_cons, List.length_cons,
        Bool.false_eq_true, if_false]
      congr 1
      push_cast
      omega

theorem filter_length_split (objs : List BatchObjectResponse) :
    ((objs.length : Int) - ((objs.filter (fun o => !hasAction o "download")).length : Int)) =
      ((objs.filter (fun o => hasAction o "download")).length : Int) := by
  induction objs with
  | nil => simp
  | cons obj rest ih =>
    by_cases h : hasAction obj "download" = true
    · simp only [List.length_cons, List.filter_cons, h, Bool.not_true, Bool.false_eq_true,
        if_false, if_true]
      push_cast
      omega
    · simp only [Bool.not_eq_true] at h
      simp only [List.length_cons, List.filter_cons, h, Bool.not_false, if_true,
        Bool.false_eq_true, if_false]
      push_cast
      omega

theorem dispatchLoop_init (objs : List BatchObjectResponse) :
    dispatchLoop objs { totalUrls := objs.length, workers := [] } =
      { totalUrls := (objs.filter (fun o => hasAction o "download")).length
        workers := objs.filter (fun o => hasAction o "download") } := by
  rw [dispatchLoop_eq]
  simp only [List.nil_append, filter_length_split]

theorem insertAt_perm {α : Type} (i : Nat) (x : α) (l : List α) :
    List.Perm (insertAt i x l) (x :: l) := by
  unfold insertAt
  have h : List.Perm (l.take i ++ x :: l.drop i) (x :: (l.take i ++ l.drop i)) :=
    List.perm_middle
  rwa [List.take_append_drop] at h

theorem arrivalOrder_perm {α : Type} (l : List α) :
    ∀ sched : List Nat, List.Perm (arrivalOrder sched l) l := by
  induction l with
  | nil =>
    intro sched
    simp [arrivalOrder]
  | cons x xs ih =>
    intro sched
    simp only [arrivalOrder]
    exact (insertAt_perm _ x _).trans (List.Perm.cons x (ih sched.tail))

theorem arrivalOrder_nil_sched {α : Type} (l : List α) : arrivalOrder [] l = l := by
  induction l with
  | nil => rfl
  | cons x xs ih =>
    simp only [arrivalOrder, List.tail_nil, ih]
    rfl

theorem collectLoop_complete (totalUrls : Int) (results : List BatchObjectResponse) :
    ∀ (objects : List BatchObjectResponse) (count : Int),
      results ≠ [] → count + results.length = totalUrls →
      collectLoop totalUrls results objects count = some (objects ++ results) := by
  induction results with
  | nil =>
    intro objects count hne _
    exact absurd rfl hne
  | cons r rest ih =>
    intro objects count _ hlen
    simp only [List.length_cons] at hlen
    push_cast at hlen
    simp only [collectLoop]
    by_cases hge : count + 1 ≥ totalUrls
    · have hz : rest.length = 0 := by omega
      have hrest : rest = [] := List.length_eq_zero.mp hz
      simp only [hge, if_true, hrest]
    · have hpos : rest.length ≠ 0 := by omega
      have hrest : rest ≠ [] := fun h => hpos (by rw [h]; rfl)
      simp only [hge, if_false]
      rw [ih (objects ++ [r]) (count + 1) hrest (by omega)]
      simp

theorem collectLoop_starved (totalUrls : Int) (objects : List BatchObjectResponse)
    (count : Int) : collectLoop totalUrls [] objects count = none := rfl

theorem pullS3_total (env : Env) (obj : BatchObjectResponse) (w : World)
    (h : (actionAt obj "download").isSome) :
    ∃ w' r, pullS3 env obj w = .ok (w', r) := by
  cases ha : actionAt obj "download" with
  | none => simp [ha] at h
  | some a =>
    unfold pullS3
    simp only [ha]
    split
    · exact ⟨_, _, rfl⟩
    · split
      · exact ⟨_, _, rfl⟩
      · exact ⟨_, _, rfl⟩
    · exact ⟨_, _, rfl⟩

theorem runWorkers_total (env : Env) (objs : List BatchObjectResponse) :
    ∀ w : World, (∀ o ∈ objs, (actionAt o "download").isSome) →
      ∃ w' rs, runWorkers env objs w = .ok (w', rs) ∧ rs.length = objs.length := by
  induction objs with
  | nil =>
    intro w _
    exact ⟨w, [], rfl, rfl⟩
  | cons obj rest ih =>
    intro w hall
    obtain ⟨w1, r, hp⟩ := pullS3_total env obj w (hall obj (List.mem_cons_self _ _))
    obtain ⟨w2, rs, hr, hlen⟩ := ih w1 (fun o ho => hall o (List.mem_cons_of_mem _ ho))
    refine ⟨w2, r :: rs, ?_, by simp [hlen]⟩
    simp only [runWorkers, hp, hr]

theorem partition_length (env : Env) (cache : Cache) (objects : List BatchObjectResponse) :
    (objects.filterMap (cachedDescriptor env cache)).length +
      (objects.filter (unresolved env cache)).length = objects.length := by
  induction objects with
  | nil => rfl
  | cons o rest ih =>
    cases hd : cachedDescriptor env cache o with
    | none =>
      simp only [List.filterMap_cons, hd, List.filter_cons, unresolved_eq, Option.isNone_none,
        if_true, List.length_cons]
      simp only [unresolved_eq] at ih
      omega
    | some d =>
      simp only [List.filterMap_cons, hd, List.filter_cons, unresolved_eq, Option.isNone_some,
        Bool.false_eq_true, if_false, List.length_cons]
      simp only [unresolved_eq] at ih
      omega

/-! ## Lemmas: the handler -/

theorem postBatch_calls (env : Env) (sched : List Nat) (c : GinRequest) (w : World)
    (r : UpstreamRequest) (hr : r ∈ upstreamCalls (PostBatch env sched c w).world.trace) :
    r ∈ upstreamCalls w.trace ∨
    ∃ br, env.bindJSON c.Body = .ok br ∧
      r.Body = modifiedBatchRequest br (br.Objects.filter (unresolved env w.cache)) := by
  unfold PostBatch at hr
  cases hb : env.bindJSON c.Body with
  | error err =>
    simp only [hb, Outcome.world] at hr
    exact Or.inl hr
  | ok br =>
    simp only [hb] at hr
    cases hl : partitionLoop env br.Objects
        { world := w, finalObjects := [], modifiedObjects := [] } with
    | error w' =>
      simp only [hl, Outcome.world] at hr
      rw [(partitionLoop_error env br.Objects _ w' hl).2] at hr
      exact Or.inl hr
    | ok st =>
      obtain ⟨hc, ht, hm, _⟩ := partitionLoop_ok env br.Objects _ st hl
      simp only [List.nil_append] at hm
      simp only [hl] at hr
      split at hr
      · have hup := getFromUpstream_calls env
          (modifiedBatchRequest br st.modifiedObjects) c.Path c.Header st.world r
        have hfin : r ∈ upstreamCalls
            (getFromUpstream env (modifiedBatchRequest br st.modifiedObjects)
              c.Path c.Header st.world).1.trace := by
          split at hr
          · next w1 code err hg =>
            rw [hg]
            exact hr
          · next w1 up code hg =>
            rw [hg]
            dsimp only at hr ⊢
            split at hr
            · next w2 hw =>
              rw [← (runWorkers_calls env _ w1).2 w2 hw]
              exact hr
            · next w2 results hw =>
              rw [← (runWorkers_calls env _ w1).1 w2 results hw]
              split at hr <;> exact hr
        rcases hup hfin with h | h
        · rw [ht] at h
          exact Or.inl h
        · exact Or.inr ⟨br, rfl, by rw [h, hm]⟩
      · simp only [Outcome.world] at hr
        rw [ht] at hr
        exact Or.inl hr

theorem postBatch_success (env : Env) (sched : List Nat) (c : GinRequest)
    (cache : Cache) (metrics : Metrics) (batchRequest : BatchRequest)
    (upstreamBatchResponse : BatchResponse) (statusCode : Nat)
    (hb : env.bindJSON c.Body = .ok batchRequest)
    (hv : validatable env cache batchRequest.Objects)
    (hfw : batchRequest.Objects.filter (unresolved env cache) ≠ [])
    (hup : (getFromUpstream env
        (modifiedBatchRequest batchRequest (batchRequest.Objects.filter (unresolved env cache)))
        c.Path c.Header (World.init cache metrics)).2 = .ok upstreamBatchResponse statusCode)
    (hsome : upstreamBatchResponse.Objects.filter (fun o => hasAction o "download") ≠ [])
    (hnn : ∀ o ∈ upstreamBatchResponse.Objects, hasAction o "download" = true →
      (actionAt o "download").isSome) :
    ∃ w' results,
      PostBatch env sched c (World.init cache metrics) =
        .replied (.JSON 200
          { Transfer := upstreamBatchResponse.Transfer
            Objects := batchRequest.Objects.filterMap (cachedDescriptor env cache) ++ results }) w' ∧
      results.length =
        (upstreamBatchResponse.Objects.filter (fun o => hasAction o "download")).length := by
  obtain ⟨st, hl⟩ := partitionLoop_total env batchRequest.Objects
    { world := World.init cache metrics, finalObjects := [], modifiedObjects := [] } hv
  obtain ⟨_, _, hm, hf⟩ := partitionLoop_ok env batchRequest.Objects _ st hl
  simp only [List.nil_append, World.init] at hm hf
  have hpos : st.modifiedObjects.length > 0 := by
    rw [hm]
    exact List.length_pos.mpr hfw
  have hres := getFromUpstream_result env
    (modifiedBatchRequest batchRequest st.modifiedObjects) c.Path c.Header st.world
    (World.init cache metrics)
  rw [hm] at hres
  rw [hup] at hres
  rw [← hm] at hres
  have hall : ∀ o ∈ arrivalOrder sched
      (upstreamBatchResponse.Objects.filter (fun o => hasAction o "download")),
      (actionAt o "download").isSome := by
    intro o ho
    have hmem := (arrivalOrder_perm _ sched).mem_iff.mp ho
    rw [List.mem_filter] at hmem
    exact hnn o hmem.1 hmem.2
  obtain ⟨w2, rs, hrun, hlen⟩ := runWorkers_total env _
    (getFromUpstream env (modifiedBatchRequest batchRequest st.modifiedObjects)
      c.Path c.Header st.world).1 hall
  have hlen' : rs.length =
      (upstreamBatchResponse.Objects.filter (fun o => hasAction o "download")).length := by
    rw [hlen]
    exact (arrivalOrder_perm _ sched).length_eq
  have hrs : rs ≠ [] := by
    intro h
    rw [h] at hlen'
    exact hsome (List.length_eq_zero.mp hlen'.symm)
  have hcol := collectLoop_complete
    ((upstreamBatchResponse.Objects.filter (fun o => hasAction o "download")).length : Int)
    rs st.finalObjects 0 hrs (by rw [hlen']; simp)
  refine ⟨w2, rs, ?_, hlen'⟩
  unfold PostBatch
  simp only [hb, hl, hpos, if_true]
  generalize hg : getFromUpstream env (modifiedBatchRequest batchRequest st.modifiedObjects)
    c.Path c.Header st.world = g at hres hrun
  obtain ⟨w1, res⟩ := g
  simp only at hres hrun
  subst hres
  rw [hf] at hcol
  simp only [dispatchLoop_init, hrun, hf, hcol]

theorem getFromUpstream_fail {env : Env} {br : BatchRequest} {urlPath : String}
    {headers : List (String × String)} {req : UpstreamRequest} {resp : HTTPResponse}
    {b : String} (w : World)
    (hreq : newUpstreamRequest env br urlPath headers = .ok req)
    (hdo : env.httpDo req = .ok resp)
    (hs : resp.StatusCode ≠ 200)
    (hbody : openBody env resp = .ok b) :
    getFromUpstream env br urlPath headers w =
      (w.log (.httpDo req), .fail resp.StatusCode b) := by
  unfold getFromUpstream
  simp only [hreq, hdo, hbody, hs, ne_eq, not_false_eq_true, if_true]

theorem postBatch_upstream_fail (env : Env) (sched : List Nat) (c : GinRequest)
    (cache : Cache) (metrics : Metrics) (batchRequest : BatchRequest)
    (statusCode : Nat) (err : String)
    (hb : env.bindJSON c.Body = .ok batchRequest)
    (hv : validatable env cache batchRequest.Objects)
    (hfw : batchRequest.Objects.filter (unresolved env cache) ≠ [])
    (hup : (getFromUpstream env
        (modifiedBatchRequest batchRequest (batchRequest.Objects.filter (unresolved env cache)))
        c.Path c.Header (World.init cache metrics)).2 = .fail statusCode err) :
    ∃ w', PostBatch env sched c (World.init cache metrics) =
      .replied (.AbortWithError statusCode err) w' := by
  obtain ⟨st, hl⟩ := partitionLoop_total env batchRequest.Objects
    { world := World.init cache metrics, finalObjects := [], modifiedObjects := [] } hv
  obtain ⟨_, _, hm, _⟩ := partitionLoop_ok env batchRequest.Objects _ st hl
  simp only [List.nil_append, World.init] at hm
  have hpos : st.modifiedObjects.length > 0 := by
    rw [hm]
    exact List.length_pos.mpr hfw
  have hres := getFromUpstream_result env
    (modifiedBatchRequest batchRequest st.modifiedObjects) c.Path c.Header st.world
    (World.init cache metrics)
  rw [hm] at hres
  rw [hup] at hres
  rw [← hm] at hres
  unfold PostBatch
  simp only [hb, hl, hpos, if_true]
  generalize getFromUpstream env (modifiedBatchRequest batchRequest st.modifiedObjects)
    c.Path c.Header st.world = g at hres
  obtain ⟨w1, res⟩ := g
  simp only at hres
  subst hres
  exact ⟨w1, rfl⟩

theorem pullS3_emitted (env : Env) (obj : BatchObjectResponse) (w : World) :
    (pullS3 env obj w).toOption.map Prod.snd = emitted env obj := by
  unfold emitted pullS3
  dsimp only
  split
  · rfl
  · split
    · rfl
    · split <;> rfl
  · split <;> rfl

theorem runWorkers_emitted (env : Env) (objs : List BatchObjectResponse) :
    ∀ (w w' : World) (rs : List BatchObjectResponse), runWorkers env objs w = .ok (w', rs) →
      rs.map some = objs.map (emitted env) := by
  induction objs with
  | nil =>
    intro w w' rs h
    simp only [runWorkers] at h
    injection h with h
    injection h with _ h2
    subst h2
    rfl
  | cons obj rest ih =>
    intro w w' rs h
    simp only [runWorkers] at h
    cases hp : pullS3 env obj w with
    | error w1 => simp [hp] at h
    | ok p =>
      obtain ⟨w1, r⟩ := p
      simp only [hp] at h
      cases hr : runWorkers env rest w1 with
      | error w2 => simp [hr] at h
      | ok q =>
        obtain ⟨w2, rs2⟩ := q
        simp only [hr] at h
        injection h with h
        injection h with _ h2
        subst h2
        have he := pullS3_emitted env obj w
        rw [hp] at he
        simp only [List.map_cons, ih w1 w2 rs2 hr]
        rw [← he]
        rfl

theorem postBatch_reply_inv (env : Env) (sched : List Nat) (c : GinRequest)
    (cache : Cache) (metrics : Metrics) (batchRequest : BatchRequest)
    (upstreamBatchResponse : BatchResponse) (statusCode : Nat) (rep : Reply)
    (hb : env.bindJSON c.Body = .ok batchRequest)
    (hfw : batchRequest.Objects.filter (unresolved env cache) ≠ [])
    (hup : (getFromUpstream env
        (modifiedBatchRequest batchRequest (batchRequest.Objects.filter (unresolved env cache)))
        c.Path c.Header (World.init cache metrics)).2 = .ok upstreamBatchResponse statusCode)
    (hrep : (PostBatch env sched c (World.init cache metrics)).reply = some rep) :
    ∃ results,
      rep = .JSON 200
        { Transfer := upstreamBatchResponse.Transfer
          Objects := batchRequest.Objects.filterMap (cachedDescriptor env cache) ++ results } ∧
      results.map some =
        (arrivalOrder sched
          (upstreamBatchResponse.Objects.filter (fun o => hasAction o "download"))).map
          (emitted env) := by
  unfold PostBatch at hrep
  simp only [hb] at hrep
  cases hl : partitionLoop env batchRequest.Objects
      { world := World.init cache metrics, finalObjects := [], modifiedObjects := [] } with
  | error w' => simp [hl, Outcome.reply] at hrep
  | ok st =>
    obtain ⟨_, _, hm, hf⟩ := partitionLoop_ok env batchRequest.Objects _ st hl
    simp only [List.nil_append, World.init] at hm hf
    have hpos : st.modifiedObjects.length > 0 := by
      rw [hm]
      exact List.length_pos.mpr hfw
    have hres := getFromUpstream_result env
      (modifiedBatchRequest batchRequest st.modifiedObjects) c.Path c.Header st.world
      (World.init cache metrics)
    rw [hm] at hres
    rw [hup] at hres
    rw [← hm] at hres
    simp only [hl, hpos, if_true] at hrep
    generalize getFromUpstream env (modifiedBatchRequest batchRequest st.modifiedObjects)
      c.Path c.Header st.world = g at hres hrep
    obtain ⟨w1, res⟩ := g
    simp only at hres
    subst hres
    simp only [dispatchLoop_init] at hrep
    cases hrun : runWorkers env (arrivalOrder sched
        (upstreamBatchResponse.Objects.filter (fun o => hasAction o "download"))) w1 with
    | error w2 => simp [hrun, Outcome.reply] at hrep
    | ok q =>
      obtain ⟨w2, rs⟩ := q
      have hem := runWorkers_emitted env _ w1 w2 rs hrun
      have hlen : rs.length =
          (upstreamBatchResponse.Objects.filter (fun o => hasAction o "download")).length := by
        have h1 := congrArg List.length hem
        simp only [List.length_map] at h1
        rw [h1]
        exact (arrivalOrder_perm _ sched).length_eq
      simp only [hrun] at hrep
      by_cases hrs : rs = []
      · subst hrs
        simp [collectLoop, Outcome.reply] at hrep
      · have hcol := collectLoop_complete
          ((upstreamBatchResponse.Objects.filter (fun o => hasAction o "download")).length : Int)
          rs st.finalObjects 0 hrs (by rw [hlen]; simp)
        simp only [hcol, Outcome.reply, Option.some.injEq] at hrep
        exact ⟨rs, by rw [← hrep, hf], hem⟩

theorem dropWhile_head_ne (l : List Char) :
    (l.dropWhile (fun c => decide (c = '/'))).head? ≠ some '/' := by
  induction l with
  | nil => simp
  | cons c rest ih =>
    by_cases hc : c = '/'
    · simpa [List.dropWhile_cons, hc] using ih
    · simp only [List.dropWhile_cons, hc, decide_False, Bool.false_eq_true, if_false,
        List.head?_cons, ne_eq, Option.some.injEq, not_false_eq_true]

theorem trimLeftSlash_head (s : String) : (trimLeftSlash s).toList.head? ≠ some '/' := by
  unfold trimLeftSlash
  exact dropWhile_head_ne s.toList

/-! ## Lemmas: the caches the proxy writes -/

theorem cacheWritten_empty (env : Env) : cacheWritten env [] := by
  intro key data h
  simp [Cache.Get, mapLookup] at h

theorem cacheWritten_set {env : Env} {cache : Cache} (h : cacheWritten env cache)
    (key : String) (d : BatchObjectResponse) (hd : (actionAt d "download").isSome) :
    cacheWritten env (cache.Set key (env.jsonMarshal d)) := by
  intro k data hg
  by_cases hk : k = key
  · subst hk
    simp only [Cache.Get, Cache.Set, mapLookup_mapStore_self, Option.some.injEq] at hg
    exact ⟨d, hg.symm, hd⟩
  · have hother : (cache.Set key (env.jsonMarshal d)).Get k = cache.Get k :=
      mapLookup_mapStore_other _ _ _ _ hk
    rw [hother] at hg
    exact h k data hg

theorem cacheWritten_delete {env : Env} {cache : Cache} (h : cacheWritten env cache)
    (key : String) : cacheWritten env (cache.Delete key) := by
  intro k data hg
  by_cases hk : k = key
  · subst hk
    simp [Cache.Get, Cache.Delete, mapLookup_mapDelete_self] at hg
  · have hother : (cache.Delete key).Get k = cache.Get k :=
      mapLookup_mapDelete_other _ _ _ hk
    rw [hother] at hg
    exact h k data hg

theorem pullS3_cacheWritten (env : Env) (obj : BatchObjectResponse) (w : World)
    (h : cacheWritten env w.cache) :
    (∀ w' r, pullS3 env obj w = .ok (w', r) → cacheWritten env w'.cache) ∧
    (∀ w', pullS3 env obj w = .error w' → cacheWritten env w'.cache) := by
  unfold pullS3
  simp only [World.log]
  constructor
  · intro w' r hrun
    split at hrun
    · injection hrun with hrun; injection hrun with h1 _; subst h1
      exact h
    · split at hrun
      · injection hrun with hrun; injection hrun with h1 _; subst h1
        exact h
      · split at hrun
        · simp at hrun
        · injection hrun with hrun; injection hrun with h1 _; subst h1
          exact cacheWritten_set h _ _ (by simp [actionAt, mapLookup_mapStore_self])
    · split at hrun
      · simp at hrun
      · injection hrun with hrun; injection hrun with h1 _; subst h1
        simp only
        split
        · split <;> exact h
        · exact h
  · intro w' hrun
    split at hrun
    · simp at hrun
    · split at hrun
      · simp at hrun
      · split at hrun
        · injection hrun with hrun; subst hrun
          exact h
        · simp at hrun
    · split at hrun
      · injection hrun with hrun; subst hrun
        exact h
      · simp at hrun

theorem runWorkers_cacheWritten (env : Env) (objs : List BatchObjectResponse) :
    ∀ w : World, cacheWritten env w.cache →
      (∀ w' rs, runWorkers env objs w = .ok (w', rs) → cacheWritten env w'.cache) ∧
      (∀ w', runWorkers env objs w = .error w' → cacheWritten env w'.cache) := by
  induction objs with
  | nil =>
    intro w h
    constructor
    · intro w' rs hrun
      simp only [runWorkers] at hrun
      injection hrun with hrun; injection hrun with h1 _; subst h1
      exact h
    · intro w' hrun
      simp [runWorkers] at hrun
  | cons obj rest ih =>
    intro w h
    obtain ⟨pok, perr⟩ := pullS3_cacheWritten env obj w h
    constructor
    · intro w' rs hrun
      simp only [runWorkers] at hrun
      cases hp : pullS3 env obj w with
      | error w1 => simp [hp] at hrun
      | ok p =>
        obtain ⟨w1, r⟩ := p
        simp only [hp] at hrun
        cases hr : runWorkers env rest w1 with
        | error w2 => simp [hr] at hrun
        | ok q =>
          obtain ⟨w2, rs2⟩ := q
          simp only [hr] at hrun
          injection hrun with hrun; injection hrun with h1 _; subst h1
          exact (ih w1 (pok w1 r hp)).1 w2 rs2 hr
    · intro w' hrun
      simp only [runWorkers] at hrun
      cases hp : pullS3 env obj w with
      | error w1 =>
        simp only [hp] at hrun
        injection hrun with hrun; subst hrun
        exact perr w1 hp
      | ok p =>
        obtain ⟨w1, r⟩ := p
        simp only [hp] at hrun
        cases hr : runWorkers env rest w1 with
        | error w2 =>
          simp only [hr] at hrun
          injection hrun with hrun; subst hrun
          exact (ih w1 (pok w1 r hp)).2 w2 hr
        | ok q => simp [hr] at hrun

theorem runTask_cacheWritten (env : Env) (t : Task) (w : World)
    (h : cacheWritten env w.cache) :
    (∀ w', runTask env t w = .ok w' → cacheWritten env w'.cache) ∧
    (∀ w', runTask env t w = .error w' → cacheWritten env w'.cache) := by
  cases t with
  | checkCachedLink oid headHref =>
    simp only [runTask]
    unfold checkCachedLink
    simp only [World.log]
    constructor
    · intro w' hrun
      split at hrun
      · simp at hrun
      · split at hrun
        · injection hrun with hrun; subst hrun
          exact cacheWritten_delete h _
        · injection hrun with hrun; subst hrun
          exact h
    · intro w' hrun
      split at hrun
      · injection hrun with hrun; subst hrun
        exact h
      · split at hrun <;> simp at hrun
  | pushToS3 obj body =>
    simp only [runTask]
    unfold pushToS3
    simp only [World.log]
    constructor
    · intro w' hrun
      split at hrun
      · injection hrun with hrun; subst hrun
        exact h
      · split at hrun
        · injection hrun with hrun; subst hrun
          exact h
        · split at hrun
          · simp at hrun
          · injection hrun with hrun; subst hrun
            exact cacheWritten_set h _ _ (by simp [actionAt, mapLookup])
    · intro w' hrun
      split at hrun
      · simp at hrun
      · split at hrun
        · simp at hrun
        · split at hrun
          · injection hrun with hrun; subst hrun
            exact h
          · simp at hrun

theorem postBatch_cacheWritten (env : Env) (sched : List Nat) (c : GinRequest) (w : World)
    (h : cacheWritten env w.cache) :
    cacheWritten env (PostBatch env sched c w).world.cache := by
  unfold PostBatch
  cases hb : env.bindJSON c.Body with
  | error err => exact h
  | ok br =>
    simp only
    cases hl : partitionLoop env br.Objects
        { world := w, finalObjects := [], modifiedObjects := [] } with
    | error w' =>
      simp only [Outcome.world]
      rw [(partitionLoop_error env _ _ w' hl).1]
      exact h
    | ok st =>
      have hc := (partitionLoop_ok env _ _ st hl).1
      have hst : cacheWritten env st.world.cache := by
        rw [hc]
        exact h
      simp only
      split
      · have hcache := (getFromUpstream_cache env
          (modifiedBatchRequest br st.modifiedObjects) c.Path c.Header st.world).1
        generalize getFromUpstream env (modifiedBatchRequest br st.modifiedObjects)
          c.Path c.Header st.world = g at hcache
        obtain ⟨w1, res⟩ := g
        simp only at hcache
        have hw1 : cacheWritten env w1.cache := by
          rw [hcache]
          exact hst
        cases res with
        | fail code err => exact hw1
        | ok up code =>
          simp only
          cases hrun : runWorkers env (arrivalOrder sched
              (dispatchLoop up.Objects { totalUrls := up.Objects.length, workers := [] }).workers)
              w1 with
          | error w2 => exact (runWorkers_cacheWritten env _ w1 hw1).2 w2 hrun
          | ok q =>
            obtain ⟨w2, results⟩ := q
            have hw2 := (runWorkers_cacheWritten env _ w1 hw1).1 w2 results hrun
            simp only
            split <;> exact hw2
      · exact hst

theorem validatable_of_cacheWritten {env : Env} {cache : Cache}
    (hcodec : ∀ d, env.jsonUnmarshal (env.jsonMarshal d) = some d)
    (h : cacheWritten env cache) (objects : List BatchObjectResponse) :
    validatable env cache objects := by
  intro _ o _ d hd
  unfold cachedDescriptor at hd
  cases hg : cache.Get o.OID with
  | none => simp [hg] at hd
  | some data =>
    simp only [hg, Option.some_bind] at hd
    obtain ⟨d0, hdata, hact⟩ := h o.OID data hg
    rw [hdata, hcodec d0] at hd
    injection hd with hd
    rw [← hd]
    exact hact

/-! ## Lemmas: the detached validators -/

theorem partitionStep_spawned {env : Env} {st : Partition} {object : BatchObjectResponse} :
    (∀ st', partitionStep env st object = .ok st' →
      ∀ t ∈ st'.world.spawned, t ∈ st.world.spawned ∨
        isValidatorFor env st.world.cache [object] t) ∧
    (∀ w, partitionStep env st object = .error w → w.spawned = st.world.spawned) := by
  unfold partitionStep
  simp only [World.log]
  cases hg : st.world.cache.Get object.OID with
  | none =>
    constructor
    · intro st' h t ht
      injection h with h
      subst h
      exact Or.inl ht
    · intro w h
      simp at h
  | some data =>
    cases hu : env.jsonUnmarshal data with
    | none =>
      simp only [hu]
      constructor
      · intro st' h t ht
        injection h with h
        subst h
        exact Or.inl ht
      · intro w h
        simp at h
    | some cached =>
      simp only [hu]
      have hd : (cachedDescriptor env st.world.cache object).isSome := by
        simp [cachedDescriptor, hg, hu]
      by_cases hp : env.S3PresignEnabled = true
      · simp only [hp, if_true]
        cases ha : actionAt cached "download" with
        | none =>
          simp only
          constructor
          · intro st' h
            simp at h
          · intro w h
            injection h with h
            subst h
            rfl
        | some a =>
          simp only
          constructor
          · intro st' h t ht
            injection h with h
            subst h
            simp only [World.spawn, List.mem_append, List.mem_singleton] at ht
            rcases ht with ht | ht
            · exact Or.inl ht
            · exact Or.inr ⟨hp, object, List.mem_singleton.mpr rfl, a.HeadHref, ht, hd⟩
          · intro w h
            simp at h
      · simp only [hp]
        constructor
        · intro st' h t ht
          injection h with h
          subst h
          exact Or.inl ht
        · intro w h
          simp at h

theorem isValidatorFor_mono {env : Env} {cache : Cache} {xs ys : List BatchObjectResponse}
    {t : Task} (hsub : ∀ o ∈ xs, o ∈ ys) (h : isValidatorFor env cache xs t) :
    isValidatorFor env cache ys t := by
  obtain ⟨hp, o, ho, href, ht, hd⟩ := h
  exact ⟨hp, o, hsub o ho, href, ht, hd⟩

theorem partitionLoop_spawned (env : Env) (objects : List BatchObjectResponse) :
    ∀ st : Partition,
      (∀ st', partitionLoop env objects st = .ok st' →
        ∀ t ∈ st'.world.spawned, t ∈ st.world.spawned ∨
          isValidatorFor env st.world.cache objects t) ∧
      (∀ w, partitionLoop env objects st = .error w →
        ∀ t ∈ w.spawned, t ∈ st.world.spawned ∨
          isValidatorFor env st.world.cache objects t) := by
  induction objects with
  | nil =>
    intro st
    constructor
    · intro st' h t ht
      simp only [partitionLoop] at h
      injection h with h
      subst h
      exact Or.inl ht
    · intro w h
      simp [partitionLoop] at h
  | cons object rest ih =>
    intro st
    obtain ⟨sok, serr⟩ := @partitionStep_spawned env st object
    have hhead : ∀ t, isValidatorFor env st.world.cache [object] t →
        isValidatorFor env st.world.cache (object :: rest) t := fun t h =>
      isValidatorFor_mono (fun o ho => by
        rw [List.mem_singleton] at ho
        rw [ho]
        exact List.mem_cons_self _ _) h
    have htail : ∀ t, isValidatorFor env st.world.cache rest t →
        isValidatorFor env st.world.cache (object :: rest) t := fun t h =>
      isValidatorFor_mono (fun o ho => List.mem_cons_of_mem _ ho) h
    constructor
    · intro st' h t ht
      simp only [partitionLoop] at h
      cases hs : partitionStep env st object with
      | error w => simp [hs] at h
      | ok st1 =>
        simp only [hs] at h
        have hc := (partitionStep_ok hs).1
        rcases (ih st1).1 st' h t ht with h1 | h1
        · rcases sok st1 hs t h1 with h2 | h2
          · exact Or.inl h2
          · exact Or.inr (hhead t h2)
        · rw [hc] at h1
          exact Or.inr (htail t h1)
    · intro w h t ht
      simp only [partitionLoop] at h
      cases hs : partitionStep env st object with
      | error w1 =>
        simp only [hs] at h
        injection h with h
        subst h
        rw [serr w1 hs] at ht
        exact Or.inl ht
      | ok st1 =>
        simp only [hs] at h
        have hc := (partitionStep_ok hs).1
        rcases (ih st1).2 w h t ht with h1 | h1
        · rcases sok st1 hs t h1 with h2 | h2
          · exact Or.inl h2
          · exact Or.inr (hhead t h2)
        · rw [hc] at h1
          exact Or.inr (htail t h1)

theorem checkCachedLink_cache {env : Env} {oid headHref : String} {w w' : World}
    (h : checkCachedLink env oid headHref w = .ok w') :
    w'.cache = w.cache ∨ w'.cache = w.cache.Delete oid := by
  unfold checkCachedLink at h
  simp only [World.log] at h
  split at h
  · simp at h
  · split at h
    · injection h with h
      subst h
      exact Or.inr rfl
    · injection h with h
      subst h
      exact Or.inl rfl

theorem runDetached_validators (env : Env) (P : String → Prop) (tasks : List Task) :
    ∀ (done : List Bool) (w w' : World),
      (∀ t ∈ tasks, ∃ oid headHref, t = .checkCachedLink oid headHref ∧ P oid) →
      runDetached env done tasks w = .ok w' →
      ∀ key, w'.cache.Get key = w.cache.Get key ∨ (w'.cache.Get key = none ∧ P key) := by
  induction tasks with
  | nil =>
    intro done w w' _ h key
    simp only [runDetached] at h
    injection h with h
    subst h
    exact Or.inl rfl
  | cons t rest ih =>
    intro done w w' hall h key
    have hrest : ∀ t' ∈ rest, ∃ oid headHref, t' = .checkCachedLink oid headHref ∧ P oid :=
      fun t' ht' => hall t' (List.mem_cons_of_mem _ ht')
    simp only [runDetached] at h
    by_cases hd : done.headD false = true
    · simp only [hd, if_true] at h
      obtain ⟨oid, headHref, ht, hP⟩ := hall t (List.mem_cons_self _ _)
      subst ht
      simp only [runTask] at h
      cases hrun : checkCachedLink env oid headHref w with
      | error w1 => simp [hrun] at h
      | ok w1 =>
        simp only [hrun] at h
        have hstep := checkCachedLink_cache hrun
        rcases ih done.tail w1 w' hrest h key with h1 | h1
        · rcases hstep with hs | hs
          · rw [hs] at h1
            exact Or.inl h1
          · by_cases hk : key = oid
            · subst hk
              rw [hs] at h1
              have hnone : (w.cache.Delete key).Get key = none := mapLookup_mapDelete_self _ _
              rw [hnone] at h1
              exact Or.inr ⟨h1, hP⟩
            · rw [hs] at h1
              have hother : (w.cache.Delete oid).Get key = w.cache.Get key :=
                mapLookup_mapDelete_other _ _ _ hk
              rw [hother] at h1
              exact Or.inl h1
        · exact Or.inr h1
    · simp only [hd, if_false] at h
      exact ih done.tail w w' hrest h key

theorem postBatch_fail_world (env : Env) (sched : List Nat) (c : GinRequest)
    (cache : Cache) (metrics : Metrics) (batchRequest : BatchRequest)
    (statusCode : Nat) (err : String)
    (hb : env.bindJSON c.Body = .ok batchRequest)
    (hup : (getFromUpstream env
        (modifiedBatchRequest batchRequest (batchRequest.Objects.filter (unresolved env cache)))
        c.Path c.Header (World.init cache metrics)).2 = .fail statusCode err) :
    (PostBatch env sched c (World.init cache metrics)).world.cache = cache ∧
    ∀ t ∈ (PostBatch env sched c (World.init cache metrics)).world.spawned,
      isValidatorFor env cache batchRequest.Objects t := by
  have hinit : ∀ (ws : World) (t : Task), t ∈ ws.spawned →
      (∀ t' ∈ ws.spawned, t' ∈ (World.init cache metrics).spawned ∨
        isValidatorFor env (World.init cache metrics).cache batchRequest.Objects t') →
      isValidatorFor env cache batchRequest.Objects t := by
    intro ws t ht hall
    rcases hall t ht with h | h
    · simp [World.init] at h
    · exact h
  unfold PostBatch
  simp only [hb]
  cases hl : partitionLoop env batchRequest.Objects
      { world := World.init cache metrics, finalObjects := [], modifiedObjects := [] } with
  | error w' =>
    simp only [Outcome.world]
    exact ⟨(partitionLoop_error env batchRequest.Objects _ w' hl).1,
      fun t ht => hinit w' t ht ((partitionLoop_spawned env batchRequest.Objects _).2 w' hl)⟩
  | ok st =>
    obtain ⟨hc, _, hm, _⟩ := partitionLoop_ok env batchRequest.Objects _ st hl
    have hsp := (partitionLoop_spawned env batchRequest.Objects _).1 st hl
    simp only [List.nil_append, World.init] at hm hc
    simp only
    split
    · have hres := getFromUpstream_result env
        (modifiedBatchRequest batchRequest st.modifiedObjects) c.Path c.Header st.world
        (World.init cache metrics)
      rw [hm] at hres
      rw [hup] at hres
      rw [← hm] at hres
      have hcache := getFromUpstream_cache env
        (modifiedBatchRequest batchRequest st.modifiedObjects) c.Path c.Header st.world
      generalize getFromUpstream env (modifiedBatchRequest batchRequest st.modifiedObjects)
        c.Path c.Header st.world = g at hres hcache
      obtain ⟨w1, res⟩ := g
      simp only at hres hcache
      subst hres
      simp only [Outcome.world]
      refine ⟨by rw [hcache.1, hc], fun t ht => ?_⟩
      rw [hcache.2] at ht
      exact hinit st.world t ht hsp
    · simp only [Outcome.world]
      exact ⟨hc, fun t ht => hinit st.world t ht hsp⟩

/-! ## Claims -/

/-- C1: every request `PostBatch` sends to the origin carries, as its objects, exactly the
objects of the original request whose cache lookup fails or whose cached bytes fail to
deserialize, in request order and with multiplicity, and its operation, transfers, ref and
hash_algo are those of the original request. -/
theorem postBatch_forwards_exactly_unresolved (env : Env) (sched : List Nat) (c : GinRequest)
    (cache : Cache) (metrics : Metrics) (batchRequest : BatchRequest)
    (hb : env.bindJSON c.Body = .ok batchRequest) (r : UpstreamRequest)
    (hr : r ∈ upstreamCalls (PostBatch env sched c (World.init cache metrics)).world.trace) :
    r.Body.Objects = batchRequest.Objects.filter (unresolved env cache) ∧
    r.Body.Operation = batchRequest.Operation ∧
    r.Body.Transfers = batchRequest.Transfers ∧
    r.Body.Ref = batchRequest.Ref ∧
    r.Body.HashAlgo = batchRequest.HashAlgo := by
  rcases postBatch_calls env sched c (World.init cache metrics) r hr with h | ⟨br, hbr, h⟩
  · simp [World.init, upstreamCalls] at h
  · rw [hb] at hbr
    injection hbr with hbr
    subst hbr
    rw [h]
    exact ⟨rfl, rfl, rfl, rfl, rfl⟩

/-- C1, on the mixed request of the tests: "123" is cached, "1234" is not, and the request
sent to the origin holds "1234" only. -/
theorem postBatch_forwards_exactly_unresolved_witness :
    forwarded1234 ∈ upstreamCalls
      (PostBatch (testEnv false [] (.ok (originOK "1234"))) [] (testRequest "123,1234")
        (World.init testCache noMetrics)).world.trace ∧
    forwarded1234.Body.Objects = [requested "1234"] ∧
    (forwarded1234.Body.Objects =
        (testBatchRequest ["123", "1234"]).Objects.filter
          (unresolved (testEnv false [] (.ok (originOK "1234"))) testCache) ∧
      forwarded1234.Body.Operation = (testBatchRequest ["123", "1234"]).Operation ∧
      forwarded1234.Body.Transfers = (testBatchRequest ["123", "1234"]).Transfers ∧
      forwarded1234.Body.Ref = (testBatchRequest ["123", "1234"]).Ref ∧
      forwarded1234.Body.HashAlgo = (testBatchRequest ["123", "1234"]).HashAlgo) :=
  ⟨by decide, by decide,
    postBatch_forwards_exactly_unresolved (testEnv false [] (.ok (originOK "1234"))) []
      (testRequest "123,1234") testCache noMetrics (testBatchRequest ["123", "1234"])
      rfl forwarded1234 (by decide)⟩

/-- C2: when every requested oid has a cache entry that deserializes successfully,
`PostBatch` sends nothing to the origin, answers 200, and the response objects are exactly
the cached descriptors of the requested oids in request order. The cache is one the proxy
produces: `hv` says that, with presigning enabled, the cached descriptors of the requested
oids carry the "download" action every cache write of the proxy puts there
(`validatable_of_cacheWritten`, `postBatch_cacheWritten`, `runTask_cacheWritten`). -/
theorem postBatch_all_cached (env : Env) (sched : List Nat) (c : GinRequest)
    (cache : Cache) (metrics : Metrics) (batchRequest : BatchRequest)
    (hb : env.bindJSON c.Body = .ok batchRequest)
    (hc : ∀ o ∈ batchRequest.Objects, (cachedDescriptor env cache o).isSome)
    (hv : validatable env cache batchRequest.Objects) :
    upstreamCalls (PostBatch env sched c (World.init cache metrics)).world.trace = [] ∧
    (PostBatch env sched c (World.init cache metrics)).reply =
      some (.JSON 200 { Transfer := ""
                        Objects := batchRequest.Objects.filterMap (cachedDescriptor env cache) }) ∧
    (batchRequest.Objects.filterMap (cachedDescriptor env cache)).map some =
      batchRequest.Objects.map (cachedDescriptor env cache) := by
  obtain ⟨st, hl⟩ := partitionLoop_total env batchRequest.Objects
    { world := World.init cache metrics, finalObjects := [], modifiedObjects := [] } hv
  obtain ⟨_, ht, hm, hf⟩ := partitionLoop_ok env batchRequest.Objects _ st hl
  have hnone : batchRequest.Objects.filter (unresolved env cache) = [] := by
    rw [List.filter_eq_nil_iff]
    intro o ho
    rw [unresolved_eq]
    have := hc o ho
    cases hd : cachedDescriptor env cache o with
    | none => simp [hd] at this
    | some d => simp
  simp only [List.nil_append, World.init] at hm hf ht
  rw [hnone] at hm
  have hmap : ∀ l : List BatchObjectResponse,
      (∀ o ∈ l, (cachedDescriptor env cache o).isSome) →
      (l.filterMap (cachedDescriptor env cache)).map some = l.map (cachedDescriptor env cache) := by
    intro l
    induction l with
    | nil => intro _; rfl
    | cons o rest ih =>
      intro hall
      have ho := hall o (List.mem_cons_self _ _)
      cases hd : cachedDescriptor env cache o with
      | none => simp [hd] at ho
      | some d =>
        simp only [List.filterMap_cons, hd, List.map_cons]
        rw [ih (fun o' ho' => hall o' (List.mem_cons_of_mem _ ho'))]
  refine ⟨?_, ?_, hmap _ hc⟩
  · unfold PostBatch
    simp only [hb, hl, hm, List.length_nil, gt_iff_lt, lt_self_iff_false, if_false,
      Outcome.world, ht]
    rfl
  · unfold PostBatch
    simp only [hb, hl, hm, List.length_nil, gt_iff_lt, lt_self_iff_false, if_false,
      Outcome.reply, hf]

/-- C2, scenario A of the tests with presigning enabled: the cache is the one a backfill of
"123" leaves, the request asks for "123" only; the handler answers from the cache, calls
nobody, and starts one validator for the cached link. -/
theorem postBatch_all_cached_witness :
    (pushToS3 (testEnv true [("123", "https://fake-url.com")] (.error "should not call upstream"))
        origin123 "" (World.init [] noMetrics)).toOption.map World.cache = some testCache ∧
    (PostBatch (testEnv true [] (.error "should not call upstream")) []
        (testRequest "123") (World.init testCache noMetrics)).world.spawned =
      [.checkCachedLink "123" "https://fake-url.com"] ∧
    (PostBatch (testEnv true [] (.error "should not call upstream")) []
        (testRequest "123") (World.init testCache noMetrics)).world.trace = [.cacheGet "123"] ∧
    (upstreamCalls (PostBatch (testEnv true [] (.error "should not call upstream")) []
        (testRequest "123") (World.init testCache noMetrics)).world.trace = [] ∧
      (PostBatch (testEnv true [] (.error "should not call upstream")) []
        (testRequest "123") (World.init testCache noMetrics)).reply =
        some (.JSON 200 { Transfer := ""
                          Objects := (testBatchRequest ["123"]).Objects.filterMap
                            (cachedDescriptor (testEnv true [] (.error "should not call upstream"))
                              testCache) }) ∧
      ((testBatchRequest ["123"]).Objects.filterMap
          (cachedDescriptor (testEnv true [] (.error "should not call upstream")) testCache)).map some =
        (testBatchRequest ["123"]).Objects.map
          (cachedDescriptor (testEnv true [] (.error "should not call upstream")) testCache)) :=
  ⟨by decide, by decide, by decide,
    postBatch_all_cached (testEnv true [] (.error "should not call upstream")) []
      (testRequest "123") testCache noMetrics (testBatchRequest ["123"]) rfl
      (by decide)
      (by
        intro _ o ho d hd
        simp only [testBatchRequest, List.map_cons, List.map_nil, List.mem_singleton] at ho
        subst ho
        have hc : cachedDescriptor (testEnv true [] (.error "should not call upstream"))
            testCache (requested "123") = some cached123 := by decide
        rw [hc] at hd
        injection hd with hd
        subst hd
        decide)⟩

/-- C3 as stated fails: the origin answers the two forwarded objects with two objects, the
second without a "download" action; the dispatch loop skips it and it never reaches the
response, which holds one descriptor for two requested objects. -/
theorem postBatch_response_count_counterexample :
    ((testBatchRequest ["1234", "5678"]).Objects.filter
        (unresolved (testEnv false [] (.ok (originOK "1234,upload"))) testCache)).length = 2 ∧
    (getFromUpstream (testEnv false [] (.ok (originOK "1234,upload")))
        (modifiedBatchRequest (testBatchRequest ["1234", "5678"])
          ((testBatchRequest ["1234", "5678"]).Objects.filter
            (unresolved (testEnv false [] (.ok (originOK "1234,upload"))) testCache)))
        (testRequest "1234,5678").Path (testRequest "1234,5678").Header
        (World.init testCache noMetrics)).2 =
      .ok { Transfer := "basic", Objects := [origin1234, requested "5678"] } 200 ∧
    (PostBatch (testEnv false [] (.ok (originOK "1234,upload"))) [] (testRequest "1234,5678")
        (World.init testCache noMetrics)).reply =
      some (.JSON 200 { Transfer := "basic", Objects := [origin1234] }) :=
  ⟨by decide, by decide, by decide⟩

/-- C3 (amended): when the origin answers successfully and at least one returned object has
a "download" key (none of them holding a null action, and every cache hit fit for the
validator), `PostBatch` answers 200 with one descriptor per cache hit plus one per origin
object that has a "download" key; origin objects without that key are not part of the
response. The response then has exactly one descriptor per requested object whenever the
origin returns one object per forwarded object and every one of them has a "download"
key. -/
theorem postBatch_response_count (env : Env) (sched : List Nat) (c : GinRequest)
    (cache : Cache) (metrics : Metrics) (batchRequest : BatchRequest)
    (upstreamBatchResponse : BatchResponse) (statusCode : Nat)
    (hb : env.bindJSON c.Body = .ok batchRequest)
    (hv : validatable env cache batchRequest.Objects)
    (hfw : batchRequest.Objects.filter (unresolved env cache) ≠ [])
    (hup : (getFromUpstream env
        (modifiedBatchRequest batchRequest (batchRequest.Objects.filter (unresolved env cache)))
        c.Path c.Header (World.init cache metrics)).2 = .ok upstreamBatchResponse statusCode)
    (hsome : upstreamBatchResponse.Objects.filter (fun o => hasAction o "download") ≠ [])
    (hnn : ∀ o ∈ upstreamBatchResponse.Objects, hasAction o "download" = true →
      (actionAt o "download").isSome) :
    (PostBatch env sched c (World.init cache metrics)).reply.map Reply.status = some 200 ∧
    (PostBatch env sched c (World.init cache metrics)).reply.map (fun r => r.objects.length) =
      some ((batchRequest.Objects.filterMap (cachedDescriptor env cache)).length +
        (upstreamBatchResponse.Objects.filter (fun o => hasAction o "download")).length) ∧
    (upstreamBatchResponse.Objects.length =
        (batchRequest.Objects.filter (unresolved env cache)).length →
      (∀ o ∈ upstreamBatchResponse.Objects, hasAction o "download" = true) →
      (PostBatch env sched c (World.init cache metrics)).reply.map (fun r => r.objects.length) =
        some batchRequest.Objects.length) := by
  obtain ⟨w', results, hpb, hlen⟩ := postBatch_success env sched c cache metrics batchRequest
    upstreamBatchResponse statusCode hb hv hfw hup hsome hnn
  rw [hpb]
  simp only [Outcome.reply, Option.map_some', Reply.status, Reply.objects, List.length_append,
    hlen, true_and]
  intro hone hall
  have hfil : upstreamBatchResponse.Objects.filter (fun o => hasAction o "download") =
      upstreamBatchResponse.Objects := List.filter_eq_self.mpr hall
  rw [hfil, hone, partition_length]

/-- C3 (amended), on the mixed request of the tests: one cache hit and one origin object
with a download action give two descriptors for two requested objects. -/
theorem postBatch_response_count_witness :
    (PostBatch (testEnv false [] (.ok (originOK "1234"))) [] (testRequest "123,1234")
        (World.init testCache noMetrics)).reply.map Reply.status = some 200 ∧
    (PostBatch (testEnv false [] (.ok (originOK "1234"))) [] (testRequest "123,1234")
        (World.init testCache noMetrics)).reply.map (fun r => r.objects.length) = some 2 :=
  have h := postBatch_response_count (testEnv false [] (.ok (originOK "1234"))) []
    (testRequest "123,1234") testCache noMetrics (testBatchRequest ["123", "1234"])
    { Transfer := "basic", Objects := [origin1234] } 200 rfl
    (by intro hp; exact absurd hp (by decide)) (by decide) (by decide) (by decide) (by decide)
  ⟨h.1, h.2.2 (by decide) (by decide)⟩

/-- C4 as stated fails, on scenario D: the origin answers 403 with body "access denied"; the
handler aborts with status 403 and attaches the body text to the context as an error, but
`AbortWithError` writes nothing to the response body, so the client reads an empty body. -/
theorem postBatch_upstream_denied_counterexample :
    (testEnv false [] (.ok originDenied)).httpDo forwarded1234 = .ok originDenied ∧
    (PostBatch (testEnv false [] (.ok originDenied)) [] (testRequest "123,1234")
        (World.init testCache noMetrics)).reply = some (.AbortWithError 403 "access denied") ∧
    (PostBatch (testEnv false [] (.ok originDenied)) [] (testRequest "123,1234")
        (World.init testCache noMetrics)).reply.map (Reply.body testRender) = some "" ∧
    (PostBatch (testEnv false [] (.ok originDenied)) [] (testRequest "123,1234")
        (World.init testCache noMetrics)).reply.map (Reply.body testRender)
      ≠ some "access denied" :=
  ⟨rfl, by decide, by decide, by decide⟩

/-- C4 (amended): for every origin response with a status `s` other than 200 whose body reads
as `b`, the whole batch call fails: the client receives status `s` and an empty body, `b`
is kept only as the error attached to the request context, and no descriptor (not even a
cache hit of the same request) is returned. -/
theorem postBatch_upstream_status_abort (env : Env) (sched : List Nat) (c : GinRequest)
    (cache : Cache) (metrics : Metrics) (batchRequest : BatchRequest)
    (req : UpstreamRequest) (resp : HTTPResponse) (b : String)
    (hb : env.bindJSON c.Body = .ok batchRequest)
    (hv : validatable env cache batchRequest.Objects)
    (hfw : batchRequest.Objects.filter (unresolved env cache) ≠ [])
    (hreq : newUpstreamRequest env
        (modifiedBatchRequest batchRequest (batchRequest.Objects.filter (unresolved env cache)))
        c.Path c.Header = .ok req)
    (hdo : env.httpDo req = .ok resp)
    (hs : resp.StatusCode ≠ 200)
    (hbody : openBody env resp = .ok b) :
    (PostBatch env sched c (World.init cache metrics)).reply =
      some (.AbortWithError resp.StatusCode b) ∧
    (PostBatch env sched c (World.init cache metrics)).reply.map Reply.status =
      some resp.StatusCode ∧
    (PostBatch env sched c (World.init cache metrics)).reply.map Reply.objects = some [] ∧
    ∀ render : BatchResponse → String,
      (PostBatch env sched c (World.init cache metrics)).reply.map (Reply.body render) =
        some "" := by
  have hup := getFromUpstream_fail (World.init cache metrics) hreq hdo hs hbody
  obtain ⟨w', hpb⟩ := postBatch_upstream_fail env sched c cache metrics batchRequest
    resp.StatusCode b hb hv hfw (by rw [hup])
  rw [hpb]
  exact ⟨rfl, rfl, rfl, fun _ => rfl⟩

/-- C4 (amended), scenario D: status 403 reaches the client, the body does not. -/
theorem postBatch_upstream_status_abort_witness :
    (PostBatch (testEnv false [] (.ok originDenied)) [] (testRequest "123,1234")
        (World.init testCache noMetrics)).reply = some (.AbortWithError 403 "access denied") ∧
    (PostBatch (testEnv false [] (.ok originDenied)) [] (testRequest "123,1234")
        (World.init testCache noMetrics)).reply.map Reply.status = some 403 ∧
    (PostBatch (testEnv false [] (.ok originDenied)) [] (testRequest "123,1234")
        (World.init testCache noMetrics)).reply.map Reply.objects = some [] ∧
    (PostBatch (testEnv false [] (.ok originDenied)) [] (testRequest "123,1234")
        (World.init testCache noMetrics)).reply.map (Reply.body testRender) = some "" :=
  have h := postBatch_upstream_status_abort (testEnv false [] (.ok originDenied)) []
    (testRequest "123,1234") testCache noMetrics (testBatchRequest ["123", "1234"])
    forwarded1234 originDenied "access denied" rfl
    (by intro hp; exact absurd hp (by decide)) (by decide) rfl rfl (by decide) rfl
  ⟨h.1, h.2.1, h.2.2.1, h.2.2.2 testRender⟩

/-- C5 as stated fails: presigning is enabled, "123" is cached with a link that answers 403
to the probe, "1234" is not cached and the origin answers 403. The handler starts the
validator of "123" before it calls the origin; in the run where that validator has finished
when the handler returns, the entry "123" is gone: the cache is empty, not the cache it
was before the call. -/
theorem postBatch_upstream_failure_cache_counterexample :
    (getFromUpstream staleEnv
        (modifiedBatchRequest (testBatchRequest ["123", "1234"])
          ((testBatchRequest ["123", "1234"]).Objects.filter (unresolved staleEnv testCache)))
        (testRequest "123,1234").Path (testRequest "123,1234").Header
        (World.init testCache noMetrics)).2 = .fail 403 "access denied" ∧
    (PostBatch staleEnv [] (testRequest "123,1234") (World.init testCache noMetrics)).reply =
      some (.AbortWithError 403 "access denied") ∧
    (PostBatch staleEnv [] (testRequest "123,1234")
        (World.init testCache noMetrics)).world.spawned =
      [.checkCachedLink "123" "https://fake-url.com"] ∧
    (worldAtReturn staleEnv [] [true] (testRequest "123,1234")
        (World.init testCache noMetrics)).toOption.map World.cache = some [] ∧
    testCache ≠ [] :=
  ⟨by decide, by decide, by decide, by decide, by decide⟩

/-- C5 (amended): if the upstream call fails (a status other than 200, a transport error, or
any other failing result of `getFromUpstream`), the handler's own steps set, overwrite and
delete nothing. When the handler returns, every cache entry is as it was before the call,
except that the entry of a requested oid that was a cache hit may be gone, evicted by the
validator the handler started for it; that needs presigning to be enabled. With presigning
disabled the cache at return is the cache before the call. -/
theorem postBatch_upstream_failure_cache (env : Env) (sched : List Nat) (c : GinRequest)
    (cache : Cache) (metrics : Metrics) (batchRequest : BatchRequest)
    (statusCode : Nat) (err : String)
    (hb : env.bindJSON c.Body = .ok batchRequest)
    (hup : (getFromUpstream env
        (modifiedBatchRequest batchRequest (batchRequest.Objects.filter (unresolved env cache)))
        c.Path c.Header (World.init cache metrics)).2 = .fail statusCode err) :
    (PostBatch env sched c (World.init cache metrics)).world.cache = cache ∧
    (env.S3PresignEnabled = false →
      ∀ done, (worldAtReturn env sched done c (World.init cache metrics)).toOption.map
        World.cache = some cache) ∧
    (∀ done w', worldAtReturn env sched done c (World.init cache metrics) = .ok w' →
      ∀ key, w'.cache.Get key = cache.Get key ∨
        (w'.cache.Get key = none ∧ env.S3PresignEnabled = true ∧
          ∃ o ∈ batchRequest.Objects, o.OID = key ∧ (cachedDescriptor env cache o).isSome)) := by
  obtain ⟨hcache, hsp⟩ := postBatch_fail_world env sched c cache metrics batchRequest
    statusCode err hb hup
  refine ⟨hcache, ?_, ?_⟩
  · intro hp done
    have hnil : (PostBatch env sched c (World.init cache metrics)).world.spawned = [] := by
      rw [List.eq_nil_iff_forall_not_mem]
      intro t ht
      have := (hsp t ht).1
      rw [hp] at this
      exact absurd this (by decide)
    unfold worldAtReturn
    rw [hnil]
    simp only [runDetached, Except.toOption, Option.map_some', hcache]
  · intro done w' hrun key
    unfold worldAtReturn at hrun
    have hall : ∀ t ∈ (PostBatch env sched c (World.init cache metrics)).world.spawned,
        ∃ oid headHref, t = .checkCachedLink oid headHref ∧
          (env.S3PresignEnabled = true ∧
            ∃ o ∈ batchRequest.Objects, o.OID = oid ∧
              (cachedDescriptor env cache o).isSome) := by
      intro t ht
      obtain ⟨hp, o, ho, headHref, hteq, hd⟩ := hsp t ht
      exact ⟨o.OID, headHref, hteq, hp, o, ho, rfl, hd⟩
    have h := runDetached_validators env
      (fun oid => env.S3PresignEnabled = true ∧
        ∃ o ∈ batchRequest.Objects, o.OID = oid ∧ (cachedDescriptor env cache o).isSome)
      _ done _ w' hall hrun key
    rw [hcache] at h
    exact h

/-- C5 (amended), on the run that refutes the original claim: after the 403 of the origin
the handler's own world still holds the entry "123"; once its validator has run, "123" is
gone and the key "1234" is as before. With presigning disabled (scenario D) the cache at
return is the cache before the call. -/
theorem postBatch_upstream_failure_cache_witness :
    (PostBatch staleEnv [] (testRequest "123,1234")
        (World.init testCache noMetrics)).world.cache = testCache ∧
    (∃ w', worldAtReturn staleEnv [] [true] (testRequest "123,1234")
        (World.init testCache noMetrics) = .ok w' ∧
      w'.cache.Get "123" = none ∧
      (w'.cache.Get "1234" = testCache.Get "1234" ∨
        (w'.cache.Get "1234" = none ∧ staleEnv.S3PresignEnabled = true ∧
          ∃ o ∈ (testBatchRequest ["123", "1234"]).Objects,
            o.OID = "1234" ∧ (cachedDescriptor staleEnv testCache o).isSome))) ∧
    (worldAtReturn (testEnv false [] (.ok originDenied)) [] [true] (testRequest "123,1234")
        (World.init testCache noMetrics)).toOption.map World.cache = some testCache :=
  have h := postBatch_upstream_failure_cache staleEnv []
    (testRequest "123,1234") testCache noMetrics (testBatchRequest ["123", "1234"])
    403 "access denied" rfl (by decide)
  ⟨h.1,
    ⟨{ cache := []
       metrics := { CacheHits := 1, CacheMiss := 1, S3Hits := 0, S3Miss := 0 }
       trace := [.cacheGet "123", .cacheGet "1234", .httpDo forwarded1234,
         .httpHead "https://fake-url.com", .cacheDelete "123"]
       spawned := [.checkCachedLink "123" "https://fake-url.com"] },
      rfl, by decide, h.2.2 [true] _ rfl "1234"⟩,
    (postBatch_upstream_failure_cache (testEnv false [] (.ok originDenied)) []
      (testRequest "123,1234") testCache noMetrics (testBatchRequest ["123", "1234"])
      403 "access denied" rfl (by decide)).2.1 rfl [true]⟩

/-- C6: for an object with a "download" action `a` whose oid the store reports as existing
and whose URL derivation succeeds with `(u, h)`, `pullS3` emits the descriptor with download
href `u` and head href `h`, the same oid, size, authenticated flag, header and expiry;
afterwards the cache holds under that oid the serialization of the emitted descriptor; no
retrieval or upload is attempted and no backfill is started. -/
theorem pullS3_store_hit (env : Env) (obj : BatchObjectResponse) (w : World)
    (a : BatchObjectActionResponse) (u h : String)
    (ha : actionAt obj "download" = some a)
    (hex : env.OIDExists obj.OID = (true, none))
    (hurl : env.GetOIDPreSignedURL obj.OID = (u, h, none)) :
    ∃ w', pullS3 env obj w = .ok (w', storeResolved obj a u h) ∧
      actionAt (storeResolved obj a u h) "download" =
        some { Href := u, HeadHref := h, Header := a.Header
               ExpiresIn := a.ExpiresIn, ExpiresAt := a.ExpiresAt } ∧
      (storeResolved obj a u h).OID = obj.OID ∧
      (storeResolved obj a u h).Size = obj.Size ∧
      (storeResolved obj a u h).Authenticated = obj.Authenticated ∧
      w'.cache.Get obj.OID = some (env.jsonMarshal (storeResolved obj a u h)) ∧
      w'.spawned = w.spawned ∧
      w'.trace = w.trace ++ [.OIDExists obj.OID, .GetOIDPreSignedURL obj.OID,
        .cacheSet obj.OID (env.jsonMarshal (storeResolved obj a u h))] := by
  refine ⟨{ (cacheObjResponse env obj.OID (storeResolved obj a u h)
      ((w.log (.OIDExists obj.OID)).log (.GetOIDPreSignedURL obj.OID))) with
      metrics := { w.metrics with S3Hits := w.metrics.S3Hits + 1 } },
    ?_, ?_, rfl, rfl, rfl, ?_, ?_, ?_⟩
  · unfold pullS3
    simp only [hex, hurl, ha]
    rfl
  · simp [storeResolved, actionAt, mapLookup_mapStore_self]
  · simp [cacheObjResponse, Cache.Get, Cache.Set, mapLookup_mapStore_self, World.log,
      storeResolved]
  · simp [cacheObjResponse, World.log]
  · simp [cacheObjResponse, World.log, storeResolved]

/-- C6, on the test "with URLs from S3": oid "1234", `u = h = "https://this-is-from-s3.com"`. -/
theorem pullS3_store_hit_witness :
    ∃ w', pullS3 (testEnv false s3Urls (.ok (originOK "1234"))) origin1234
        (World.init testCache noMetrics) =
        .ok (w', storeResolved origin1234 origin1234Download
          "https://this-is-from-s3.com" "https://this-is-from-s3.com") ∧
      actionAt (storeResolved origin1234 origin1234Download
          "https://this-is-from-s3.com" "https://this-is-from-s3.com") "download" =
        some { Href := "https://this-is-from-s3.com", HeadHref := "https://this-is-from-s3.com"
               Header := origin1234Download.Header
               ExpiresIn := origin1234Download.ExpiresIn
               ExpiresAt := origin1234Download.ExpiresAt } ∧
      (storeResolved origin1234 origin1234Download
          "https://this-is-from-s3.com" "https://this-is-from-s3.com").OID = origin1234.OID ∧
      (storeResolved origin1234 origin1234Download
          "https://this-is-from-s3.com" "https://this-is-from-s3.com").Size = origin1234.Size ∧
      (storeResolved origin1234 origin1234Download
          "https://this-is-from-s3.com" "https://this-is-from-s3.com").Authenticated =
        origin1234.Authenticated ∧
      w'.cache.Get origin1234.OID =
        some ((testEnv false s3Urls (.ok (originOK "1234"))).jsonMarshal
          (storeResolved origin1234 origin1234Download
            "https://this-is-from-s3.com" "https://this-is-from-s3.com")) ∧
      w'.spawned = (World.init testCache noMetrics).spawned ∧
      w'.trace = (World.init testCache noMetrics).trace ++
        [.OIDExists origin1234.OID, .GetOIDPreSignedURL origin1234.OID,
          .cacheSet origin1234.OID
            ((testEnv false s3Urls (.ok (originOK "1234"))).jsonMarshal
              (storeResolved origin1234 origin1234Download
                "https://this-is-from-s3.com" "https://this-is-from-s3.com"))] :=
  pullS3_store_hit (testEnv false s3Urls (.ok (originOK "1234"))) origin1234
    (World.init testCache noMetrics) origin1234Download
    "https://this-is-from-s3.com" "https://this-is-from-s3.com" rfl rfl rfl

/-- C7 as stated fails: the store reports "1234" as absent and the plain retrieval of the
origin href fails, so `pullS3` emits the origin descriptor and starts no backfill. -/
theorem pullS3_store_miss_counterexample :
    (testEnv false [] (.ok (originOK "1234"))).OIDExists originGone.OID = (false, none) ∧
    pullS3 (testEnv false [] (.ok (originOK "1234"))) originGone (World.init [] noMetrics) =
      .ok ({ cache := []
             metrics := { CacheHits := 0, CacheMiss := 0, S3Hits := 0, S3Miss := 1 }
             trace := [.OIDExists "1234", .httpGet "https://gone.example"]
             spawned := [] }, originGone) :=
  ⟨rfl, rfl⟩

/-- C7 (amended): for an object with a "download" action `a` whose oid the store reports as
absent, `pullS3` emits the origin's descriptor unchanged, leaves the cache alone, and starts
exactly one backfill when the plain retrieval of `a.Href` answers 200, none otherwise. -/
theorem pullS3_store_miss (env : Env) (obj : BatchObjectResponse) (w : World)
    (a : BatchObjectActionResponse)
    (ha : actionAt obj "download" = some a)
    (hex : env.OIDExists obj.OID = (false, none)) :
    ∃ w', pullS3 env obj w = .ok (w', obj) ∧
      w'.cache = w.cache ∧
      w'.spawned = w.spawned ++
        (match env.httpGet a.Href with
          | .ok resp => if resp.StatusCode = 200 then [.pushToS3 obj resp.Body] else []
          | .error _ => []) := by
  have ha' : actionAt (BatchObjectResponse.mk obj.OID obj.Size obj.Authenticated obj.Actions)
      "download" = some a := ha
  unfold pullS3
  simp only [hex, ha']
  cases hget : env.httpGet a.Href with
  | error e => exact ⟨_, rfl, rfl, by simp [World.log]⟩
  | ok resp =>
    by_cases h200 : resp.StatusCode = 200
    · simp only [h200, if_true]
      exact ⟨_, rfl, rfl, by simp [World.log, World.spawn]⟩
    · simp only [h200, if_false]
      exact ⟨_, rfl, rfl, by simp [World.log]⟩

/-- C7 (amended), on the test "with no URLs from S3": the retrieval of
"https://some-download.com" answers 200 and one backfill of "1234" is started. -/
theorem pullS3_store_miss_witness :
    ∃ w', pullS3 (testEnv false [] (.ok (originOK "1234"))) origin1234
        (World.init testCache noMetrics) = .ok (w', origin1234) ∧
      w'.cache = testCache ∧
      w'.spawned = [.pushToS3 origin1234 ""] :=
  pullS3_store_miss (testEnv false [] (.ok (originOK "1234"))) origin1234
    (World.init testCache noMetrics) origin1234Download rfl rfl

/-- C8: if the store existence check returns an error, or the object exists but URL
derivation returns an error, `pullS3` still emits a result, the result is the input
descriptor unchanged, the cache is not written and no backfill is started. -/
theorem pullS3_fail_open (env : Env) (obj : BatchObjectResponse) (w : World)
    (h : (env.OIDExists obj.OID).2.isSome ∨
      (env.OIDExists obj.OID = (true, none) ∧ (env.GetOIDPreSignedURL obj.OID).2.2.isSome)) :
    ∃ w', pullS3 env obj w = .ok (w', obj) ∧
      w'.cache = w.cache ∧
      w'.spawned = w.spawned ∧
      cacheWrites w'.trace = cacheWrites w.trace := by
  unfold pullS3
  rcases h with h | ⟨hex, h⟩
  · cases hx : env.OIDExists obj.OID with
    | mk found err =>
      rw [hx] at h
      cases err with
      | none => simp at h
      | some e =>
        simp only
        exact ⟨_, rfl, rfl, rfl, by simp [World.log, cacheWrites_append, cacheWrites]⟩
  · cases hx : env.GetOIDPreSignedURL obj.OID with
    | mk url rest =>
      obtain ⟨headUrl, err⟩ := rest
      rw [hx] at h
      cases err with
      | none => simp at h
      | some e =>
        simp only [hex, hx]
        exact ⟨_, rfl, rfl, rfl, by simp [World.log, cacheWrites_append, cacheWrites]⟩

/-- C8, with a store whose existence check fails: "1234" comes back with the origin href. -/
theorem pullS3_fail_open_witness :
    ∃ w', pullS3 storeDownEnv origin1234 (World.init testCache noMetrics) = .ok (w', origin1234) ∧
      w'.cache = (World.init testCache noMetrics).cache ∧
      w'.spawned = (World.init testCache noMetrics).spawned ∧
      cacheWrites w'.trace = cacheWrites (World.init testCache noMetrics).trace :=
  pullS3_fail_open storeDownEnv origin1234 (World.init testCache noMetrics) (Or.inl rfl)

/-- C9: for an object whose "download" action is `a`, `pushToS3` writes to the cache exactly
when the upload and the following URL derivation both succeed. It then sets the entry keyed
by the object's oid, and no other, to the serialization of a descriptor with the same oid,
size and authenticated flag and a single "download" action holding the derived href and
head href and the header, expires_in and expires_at of `a`. When the upload or the
derivation fails the cache is unchanged. -/
theorem pushToS3_cache (env : Env) (obj : BatchObjectResponse) (body : String) (w : World)
    (a : BatchObjectActionResponse) (ha : actionAt obj "download" = some a) :
    (∀ u h, env.UploadOID obj.OID body = none → env.GetOIDPreSignedURL obj.OID = (u, h, none) →
      ∃ w', pushToS3 env obj body w = .ok w' ∧
        w'.cache = w.cache.Set obj.OID (env.jsonMarshal (backfilled obj a u h)) ∧
        w'.cache.Get obj.OID = some (env.jsonMarshal (backfilled obj a u h)) ∧
        (∀ k, k ≠ obj.OID → w'.cache.Get k = w.cache.Get k) ∧
        cacheWrites w'.trace = cacheWrites w.trace ++
          [.cacheSet obj.OID (env.jsonMarshal (backfilled obj a u h))]) ∧
    ((env.UploadOID obj.OID body).isSome ∨ (env.GetOIDPreSignedURL obj.OID).2.2.isSome →
      ∃ w', pushToS3 env obj body w = .ok w' ∧
        w'.cache = w.cache ∧
        cacheWrites w'.trace = cacheWrites w.trace) := by
  constructor
  · intro u h hup hurl
    refine ⟨cacheObjResponse env obj.OID (backfilled obj a u h)
      ((w.log (.UploadOID obj.OID body)).log (.GetOIDPreSignedURL obj.OID)), ?_, rfl, ?_, ?_, ?_⟩
    · unfold pushToS3
      simp only [hup, hurl, ha]
      rfl
    · simp [cacheObjResponse, Cache.Get, Cache.Set, mapLookup_mapStore_self, World.log]
    · intro k hk
      simp [cacheObjResponse, Cache.Get, Cache.Set, World.log,
        mapLookup_mapStore_other _ _ _ _ hk]
    · simp [cacheObjResponse, World.log, cacheWrites_append, cacheWrites]
  · intro hfail
    unfold pushToS3
    cases hup : env.UploadOID obj.OID body with
    | some e =>
      simp only
      exact ⟨_, rfl, rfl, by simp [World.log, cacheWrites_append, cacheWrites]⟩
    | none =>
      rw [hup] at hfail
      simp only [Option.isSome_none, Bool.false_eq_true, false_or] at hfail
      cases hx : env.GetOIDPreSignedURL obj.OID with
      | mk url rest =>
        obtain ⟨headUrl, err⟩ := rest
        rw [hx] at hfail
        cases err with
        | none => simp at hfail
        | some e =>
          simp only
          exact ⟨_, rfl, rfl, by simp [World.log, cacheWrites_append, cacheWrites]⟩

/-- C9, on the backfill of the test "with no URLs from S3", once the store holds "1234":
the cache entry "1234" is set and the entry "123" is left as it was. -/
theorem pushToS3_cache_witness :
    ∃ w', pushToS3 (testEnv false s3Urls (.ok (originOK "1234"))) origin1234 ""
        (World.init testCache noMetrics) = .ok w' ∧
      w'.cache.Get "1234" = some "1234 https://this-is-from-s3.com https://this-is-from-s3.com" ∧
      w'.cache.Get "123" = testCache.Get "123" :=
  have h := (pushToS3_cache (testEnv false s3Urls (.ok (originOK "1234"))) origin1234 ""
    (World.init testCache noMetrics) origin1234Download rfl).1
    "https://this-is-from-s3.com" "https://this-is-from-s3.com" rfl rfl
  h.elim fun w' hw => ⟨w', hw.1, hw.2.2.1, hw.2.2.2.1 "123" (by decide)⟩

/-- C10 fails on the code: when the probe ends in a transport error there is no response,
`checkCachedLink` drops the error and reads `r.StatusCode` through the nil pointer, and the
goroutine panics before any eviction; the cache entry "123" is still there. -/
theorem checkCachedLink_transport_error_panics :
    (testEnv true [] (.ok (originOK "1234"))).httpHead "https://fake-url.com" =
      (none, some "no responder") ∧
    checkCachedLink (testEnv true [] (.ok (originOK "1234"))) "123" "https://fake-url.com"
        (World.init testCache noMetrics) =
      .error { cache := testCache
               metrics := noMetrics
               trace := [.httpHead "https://fake-url.com"]
               spawned := [] } :=
  ⟨rfl, rfl⟩

/-- C11: when the probe returns a response, a status of 200 (the success status of the
code) leaves the cache unchanged, and any other status deletes the entry of the probed oid
and leaves every other entry as it was. -/
theorem checkCachedLink_response (env : Env) (oid headHref : String) (w : World)
    (r : HTTPResponse) (hr : (env.httpHead headHref).1 = some r) :
    (r.StatusCode = 200 →
      ∃ w', checkCachedLink env oid headHref w = .ok w' ∧ w'.cache = w.cache) ∧
    (r.StatusCode ≠ 200 →
      ∃ w', checkCachedLink env oid headHref w = .ok w' ∧
        w'.cache.Get oid = none ∧
        ∀ k, k ≠ oid → w'.cache.Get k = w.cache.Get k) := by
  unfold checkCachedLink
  simp only [hr]
  constructor
  · intro h200
    simp only [h200, ne_eq, not_true_eq_false, if_false]
    exact ⟨_, rfl, rfl⟩
  · intro hne
    simp only [hne, ne_eq, not_false_eq_true, if_true]
    refine ⟨_, rfl, ?_, ?_⟩
    · simp [Cache.Get, Cache.Delete, World.log, mapLookup_mapDelete_self]
    · intro k hk
      simp [Cache.Get, Cache.Delete, World.log, mapLookup_mapDelete_other _ _ _ hk]

/-- C11, on a cache holding "123" and "1234": a probe of "123" answered 403 evicts "123" and
keeps "1234"; a probe answered 200 keeps the cache. -/
theorem checkCachedLink_response_witness :
    (∃ w', checkCachedLink (probeEnv 403) "123" "https://fake-url.com"
        (World.init [("123", "a"), ("1234", "b")] noMetrics) = .ok w' ∧
      w'.cache.Get "123" = none ∧ w'.cache.Get "1234" = some "b") ∧
    (∃ w', checkCachedLink (probeEnv 200) "123" "https://fake-url.com"
        (World.init [("123", "a"), ("1234", "b")] noMetrics) = .ok w' ∧
      w'.cache = [("123", "a"), ("1234", "b")]) :=
  ⟨((checkCachedLink_response (probeEnv 403) "123" "https://fake-url.com"
      (World.init [("123", "a"), ("1234", "b")] noMetrics)
      { StatusCode := 403, Uncompressed := false, ContentEncoding := "", Body := "" } rfl).2
      (by decide)).elim
      fun w' hw => ⟨w', hw.1, hw.2.1, (hw.2.2 "1234" (by decide)).trans (by decide)⟩,
    (checkCachedLink_response (probeEnv 200) "123" "https://fake-url.com"
      (World.init [("123", "a"), ("1234", "b")] noMetrics)
      { StatusCode := 200, Uncompressed := false, ContentEncoding := "", Body := "" } rfl).1
      rfl⟩

/-- C12 as stated fails: a body that does not parse makes the handler abort with status
500, which is not a client-error status. -/
theorem postBatch_malformed_counterexample :
    (PostBatch (testEnv false [] (.ok (originOK "1234"))) [] (testRequest "not json")
        (World.init testCache noMetrics)).reply.map Reply.status = some 500 ∧
    isClientError 500 = false :=
  ⟨by decide, by decide⟩

/-- C12 (amended): for every request body that does not parse as a `BatchRequest`,
`PostBatch` aborts with status 500 and the parse error, returns no descriptor, and does
nothing else: no cache lookup, no upstream call, no store call, no cache write and no
goroutine. -/
theorem postBatch_malformed (env : Env) (sched : List Nat) (c : GinRequest)
    (cache : Cache) (metrics : Metrics) (err : String)
    (hb : env.bindJSON c.Body = .error err) :
    PostBatch env sched c (World.init cache metrics) =
      .replied (.AbortWithError 500 err) (World.init cache metrics) ∧
    (PostBatch env sched c (World.init cache metrics)).world.trace = [] ∧
    (PostBatch env sched c (World.init cache metrics)).world.spawned = [] ∧
    (PostBatch env sched c (World.init cache metrics)).world.cache = cache := by
  have h : PostBatch env sched c (World.init cache metrics) =
      .replied (.AbortWithError 500 err) (World.init cache metrics) := by
    unfold PostBatch
    simp only [hb]
  rw [h]
  exact ⟨rfl, rfl, rfl, rfl⟩

/-- C12 (amended), on a body the test handler cannot parse. -/
theorem postBatch_malformed_witness :
    PostBatch (testEnv false [] (.ok (originOK "1234"))) [] (testRequest "not json")
        (World.init testCache noMetrics) =
      .replied (.AbortWithError 500 "invalid request") (World.init testCache noMetrics) ∧
    (PostBatch (testEnv false [] (.ok (originOK "1234"))) [] (testRequest "not json")
        (World.init testCache noMetrics)).world.trace = [] ∧
    (PostBatch (testEnv false [] (.ok (originOK "1234"))) [] (testRequest "not json")
        (World.init testCache noMetrics)).world.spawned = [] ∧
    (PostBatch (testEnv false [] (.ok (originOK "1234"))) [] (testRequest "not json")
        (World.init testCache noMetrics)).world.cache = testCache :=
  postBatch_malformed (testEnv false [] (.ok (originOK "1234"))) [] (testRequest "not json")
    testCache noMetrics "invalid request" rfl

/-- C13 fails on the code for N = 0: the origin answers 200 with one object that has no
"download" action, so `totalUrls` drops to 0 and no worker is dispatched; the collection
loop still waits for a first value on `urls`, which no goroutine sends, and the response is
never emitted. -/
theorem postBatch_no_download_blocks :
    (getFromUpstream (testEnv false [] (.ok (originOK "upload")))
        (modifiedBatchRequest (testBatchRequest ["1234"]) [requested "1234"])
        (testRequest "1234").Path (testRequest "1234").Header
        (World.init testCache noMetrics)).2 =
      .ok { Transfer := "basic", Objects := [requested "1234"] } 200 ∧
    dispatchLoop [requested "1234"] { totalUrls := 1, workers := [] } =
      { totalUrls := 0, workers := [] } ∧
    collectLoop 0 [] [] 0 = none ∧
    PostBatch (testEnv false [] (.ok (originOK "upload"))) [] (testRequest "1234")
        (World.init testCache noMetrics) =
      .blocked { cache := testCache
                 metrics := { CacheHits := 0, CacheMiss := 1, S3Hits := 0, S3Miss := 0 }
                 trace := [.cacheGet "1234",
                   .httpDo { forwarded1234 with
                     Body := modifiedBatchRequest (testBatchRequest ["1234"]) [requested "1234"] }]
                 spawned := [] } ∧
    (PostBatch (testEnv false [] (.ok (originOK "upload"))) [] (testRequest "1234")
        (World.init testCache noMetrics)).reply = none :=
  ⟨by decide, by decide, rfl, by decide, by decide⟩

/-- C17: whenever `PostBatch` replies after the origin answered successfully, the response
objects are the cache-hit descriptors in request order followed by the descriptors the
workers sent, and these are a permutation of the resolved descriptors of the origin objects
that have a "download" key, one each; no resolved descriptor precedes a cache hit. -/
theorem postBatch_response_order (env : Env) (sched : List Nat) (c : GinRequest)
    (cache : Cache) (metrics : Metrics) (batchRequest : BatchRequest)
    (upstreamBatchResponse : BatchResponse) (statusCode : Nat) (rep : Reply)
    (hb : env.bindJSON c.Body = .ok batchRequest)
    (hfw : batchRequest.Objects.filter (unresolved env cache) ≠ [])
    (hup : (getFromUpstream env
        (modifiedBatchRequest batchRequest (batchRequest.Objects.filter (unresolved env cache)))
        c.Path c.Header (World.init cache metrics)).2 = .ok upstreamBatchResponse statusCode)
    (hrep : (PostBatch env sched c (World.init cache metrics)).reply = some rep) :
    ∃ results,
      rep.status = 200 ∧
      rep.objects = batchRequest.Objects.filterMap (cachedDescriptor env cache) ++ results ∧
      List.Perm (results.map some)
        ((upstreamBatchResponse.Objects.filter (fun o => hasAction o "download")).map
          (emitted env)) := by
  obtain ⟨results, hrepeq, hres⟩ := postBatch_reply_inv env sched c cache metrics batchRequest
    upstreamBatchResponse statusCode rep hb hfw hup hrep
  refine ⟨results, ?_, ?_, ?_⟩
  · rw [hrepeq]
    rfl
  · rw [hrepeq]
    rfl
  · rw [hres]
    exact (arrivalOrder_perm _ sched).map (emitted env)

/-- C17, on the mixed request of the tests: "123" is cached, "1234" comes from the origin,
and the response lists "123" then "1234". -/
theorem postBatch_response_order_witness :
    (PostBatch (testEnv false [] (.ok (originOK "1234"))) [] (testRequest "123,1234")
        (World.init testCache noMetrics)).reply.map
        (fun r => r.objects.map BatchObjectResponse.OID) = some ["123", "1234"] ∧
    ∃ results,
      (Reply.JSON 200 { Transfer := "basic", Objects := [cached123, origin1234] }).status = 200 ∧
      (Reply.JSON 200 { Transfer := "basic", Objects := [cached123, origin1234] }).objects =
        (testBatchRequest ["123", "1234"]).Objects.filterMap
          (cachedDescriptor (testEnv false [] (.ok (originOK "1234"))) testCache) ++ results ∧
      List.Perm (results.map some)
        ((([origin1234] : List BatchObjectResponse).filter
          (fun o => hasAction o "download")).map
          (emitted (testEnv false [] (.ok (originOK "1234"))))) :=
  ⟨by decide,
    postBatch_response_order (testEnv false [] (.ok (originOK "1234"))) []
      (testRequest "123,1234") testCache noMetrics (testBatchRequest ["123", "1234"])
      { Transfer := "basic", Objects := [origin1234] } 200
      (.JSON 200 { Transfer := "basic", Objects := [cached123, origin1234] })
      rfl (by decide) (by decide) (by decide)⟩

/-- C18 fails on the code: an origin object whose "download" key holds null passes the
dispatch check, and `pullS3` dereferences the nil action both when the store reports the
oid as absent (reading `.Href`) and when it reports it as present (writing `.Href`); the
worker panics without sending a result and the handler never replies. -/
theorem pullS3_null_download_panics :
    hasAction originNull "download" = true ∧
    actionAt originNull "download" = none ∧
    pullS3 (testEnv false [] (.ok (originOK "null"))) originNull
        (World.init testCache noMetrics) =
      .error { cache := testCache, metrics := noMetrics
               trace := [.OIDExists "1234"], spawned := [] } ∧
    pullS3 (testEnv false s3Urls (.ok (originOK "null"))) originNull
        (World.init testCache noMetrics) =
      .error { cache := testCache, metrics := noMetrics
               trace := [.OIDExists "1234", .GetOIDPreSignedURL "1234"], spawned := [] } ∧
    (PostBatch (testEnv false [] (.ok (originOK "null"))) [] (testRequest "1234")
        (World.init testCache noMetrics)).reply = none :=
  ⟨by decide, by decide, rfl, rfl, by decide⟩

/-- C14: with presigning disabled, `GetOIDPreSignedURL` returns no error, presigns nothing,
and returns equal download and head URLs: the acceleration endpoint of the bucket when
acceleration is enabled, the bucket and region virtual host otherwise. -/
theorem getOIDPreSignedURL_plain (a : AWS) (oid : String) (hp : a.presignEnabled = false) :
    (a.GetOIDPreSignedURL oid).err = none ∧
    (a.GetOIDPreSignedURL oid).presigned = [] ∧
    (a.GetOIDPreSignedURL oid).headUrl = (a.GetOIDPreSignedURL oid).url ∧
    (a.GetOIDPreSignedURL oid).url =
      (if a.useAccelerate then
        "https://" ++ a.bucket ++ ".s3-accelerate.amazonaws.com/" ++ oid
      else
        "https://" ++ a.bucket ++ ".s3." ++ a.awsRegion ++ ".amazonaws.com/" ++ oid) := by
  unfold AWS.GetOIDPreSignedURL
  simp only [hp, Bool.false_eq_true, if_false]
  by_cases hacc : a.useAccelerate = true
  · simp [hacc]
  · simp [hacc]

/-- C14, on the two tests: bucket "test-bucket", region "eu-west-1", oid "test-oid". -/
theorem getOIDPreSignedURL_plain_witness :
    ((testAWS [] false false).GetOIDPreSignedURL "test-oid").url =
      "https://test-bucket.s3.eu-west-1.amazonaws.com/test-oid" ∧
    ((testAWS [] true false).GetOIDPreSignedURL "test-oid").url =
      "https://test-bucket.s3-accelerate.amazonaws.com/test-oid" ∧
    (((testAWS [] false false).GetOIDPreSignedURL "test-oid").err = none ∧
      ((testAWS [] false false).GetOIDPreSignedURL "test-oid").presigned = [] ∧
      ((testAWS [] false false).GetOIDPreSignedURL "test-oid").headUrl =
        ((testAWS [] false false).GetOIDPreSignedURL "test-oid").url ∧
      ((testAWS [] false false).GetOIDPreSignedURL "test-oid").url =
        (if (testAWS [] false false).useAccelerate then
          "https://" ++ (testAWS [] false false).bucket ++ ".s3-accelerate.amazonaws.com/" ++
            "test-oid"
        else
          "https://" ++ (testAWS [] false false).bucket ++ ".s3." ++
            (testAWS [] false false).awsRegion ++ ".amazonaws.com/" ++ "test-oid")) :=
  ⟨by decide, by decide, getOIDPreSignedURL_plain (testAWS [] false false) "test-oid" rfl⟩

/-- C15: `OIDExists` returns `(true, nil)` when the head call succeeds, `(false, nil)` when
it fails with an `awserr.Error` whose code is "NotFound", and `(false, err)` for every other
error `err`; it never returns `true` together with an error. -/
theorem oidExists_results (a : AWS) (oid : String) :
    (a.HeadObject a.bucket oid = none → a.OIDExists oid = (true, none)) ∧
    (∀ message, a.HeadObject a.bucket oid = some (.awserr "NotFound" message) →
      a.OIDExists oid = (false, none)) ∧
    (∀ err, a.HeadObject a.bucket oid = some err → err.code ≠ some "NotFound" →
      a.OIDExists oid = (false, some err)) ∧
    ¬ ((a.OIDExists oid).1 = true ∧ (a.OIDExists oid).2.isSome) := by
  unfold AWS.OIDExists
  refine ⟨?_, ?_, ?_, ?_⟩
  · intro h
    simp only [h]
  · intro message h
    simp only [h, if_true]
  · intro err h hcode
    simp only [h]
    cases err with
    | awserr code message =>
      have hne : ¬ code = "NotFound" := fun hc => hcode (by rw [hc]; rfl)
      simp only [hne, if_false]
    | other message => rfl
  · cases h : a.HeadObject a.bucket oid with
    | none => simp
    | some err =>
      cases err with
      | awserr code message =>
        by_cases hc : code = "NotFound"
        · simp [hc]
        · simp [hc]
      | other message => simp

/-- C15, on the two tests and on two failing clients: a present object, a missing object
(`NotFound`), an `AccessDenied` store error and a transport error. -/
theorem oidExists_results_witness :
    (testAWS ["test-oid"] false false).OIDExists "test-oid" = (true, none) ∧
    (testAWS [] false false).OIDExists "test-oid" = (false, none) ∧
    (failingAWS (.awserr "AccessDenied" "Access Denied")).OIDExists "test-oid" =
      (false, some (.awserr "AccessDenied" "Access Denied")) ∧
    (failingAWS (.other "dial tcp: i/o timeout")).OIDExists "test-oid" =
      (false, some (.other "dial tcp: i/o timeout")) :=
  ⟨(oidExists_results (testAWS ["test-oid"] false false) "test-oid").1 (by decide),
    (oidExists_results (testAWS [] false false) "test-oid").2.1 "Object not found" (by decide),
    (oidExists_results (failingAWS (.awserr "AccessDenied" "Access Denied")) "test-oid").2.2.1
      (.awserr "AccessDenied" "Access Denied") rfl (by decide),
    (oidExists_results (failingAWS (.other "dial tcp: i/o timeout")) "test-oid").2.2.1
      (.other "dial tcp: i/o timeout") rfl (by decide)⟩

/-- C16 as stated fails: with the base URL "https://fake-git-server.com/repository.git" (no
trailing "/") and the request path "/objects/batch", the request goes to the path
"/repository.gitobjects/batch": the separating "/" is missing. -/
theorem getFromUpstream_request_counterexample :
    (upstreamCalls (getFromUpstream noSlashEnv
        (modifiedBatchRequest (testBatchRequest ["1234"]) [requested "1234"])
        "/objects/batch" [] (World.init [] noMetrics)).1.trace).map
        (fun r => (r.Method, r.URL)) =
      [("POST", { Scheme := "https", Host := "fake-git-server.com"
                  Path := "/repository.gitobjects/batch" })] ∧
    joinedPath "/repository.git" "/objects/batch" = "/repository.git/objects/batch" ∧
    "/repository.gitobjects/batch" ≠ joinedPath "/repository.git" "/objects/batch" :=
  ⟨by decide, by decide, by decide⟩

/-- C16 (amended): for every base URL that parses to `u` and every request path,
`getFromUpstream` issues one POST whose scheme and host are those of `u` and whose path is
read from `u.Path` immediately followed by the request path without its leading "/"
characters. When that concatenation is read as a plain path and `u.Path` ends in "/", the
two parts are joined by that "/" and no second one is added. -/
theorem getFromUpstream_request (env : Env) (batchRequest : BatchRequest) (urlPath : String)
    (headers : List (String × String)) (w : World) (u v : URL)
    (hu : env.urlParse env.UpstreamBaseURL = .ok u)
    (hv : env.urlParse (u.Path ++ trimLeftSlash urlPath) = .ok v) :
    ∃ req, newUpstreamRequest env batchRequest urlPath headers = .ok req ∧
      (getFromUpstream env batchRequest urlPath headers w).1.trace = w.trace ++ [.httpDo req] ∧
      req.Method = "POST" ∧
      req.URL.Scheme = u.Scheme ∧
      req.URL.Host = u.Host ∧
      req.Host = u.Host ∧
      req.URL.Path = v.Path ∧
      (v.Path = u.Path ++ trimLeftSlash urlPath →
        ∀ p, u.Path = p ++ "/" → req.URL.Path = p ++ "/" ++ trimLeftSlash urlPath) ∧
      (trimLeftSlash urlPath).toList.head? ≠ some '/' := by
  have hreq : newUpstreamRequest env batchRequest urlPath headers =
      .ok { Method := "POST"
            URL := { v with Scheme := u.Scheme, Host := u.Host }
            Host := u.Host
            Header := headers
            Body := batchRequest } := by
    unfold newUpstreamRequest
    simp only [hu, hv]
  refine ⟨_, hreq, ?_, rfl, rfl, rfl, rfl, rfl, ?_, trimLeftSlash_head urlPath⟩
  · unfold getFromUpstream
    simp only [hreq]
    split
    · rfl
    · split
      · rfl
      · split
        · rfl
        · split <;> rfl
  · intro hplain p hp
    show v.Path = p ++ "/" ++ trimLeftSlash urlPath
    rw [hplain, hp]

/-- C16 (amended), on the configuration of the tests: the base
"https://fake-git-server.com/repository.git/" and the path "/objects/batch" give
"https://fake-git-server.com/repository.git/objects/batch". -/
theorem getFromUpstream_request_witness :
    (upstreamCalls (getFromUpstream (testEnv false [] (.ok (originOK "1234")))
        (modifiedBatchRequest (testBatchRequest ["123", "1234"]) [requested "1234"])
        "/objects/batch" [("Content-Type", "application/vnd.git-lfs+json")]
        (World.init [] noMetrics)).1.trace) = [forwarded1234] ∧
    ∃ req, newUpstreamRequest (testEnv false [] (.ok (originOK "1234")))
        (modifiedBatchRequest (testBatchRequest ["123", "1234"]) [requested "1234"])
        "/objects/batch" [("Content-Type", "application/vnd.git-lfs+json")] = .ok req ∧
      (getFromUpstream (testEnv false [] (.ok (originOK "1234")))
        (modifiedBatchRequest (testBatchRequest ["123", "1234"]) [requested "1234"])
        "/objects/batch" [("Content-Type", "application/vnd.git-lfs+json")]
        (World.init [] noMetrics)).1.trace = (World.init [] noMetrics).trace ++ [.httpDo req] ∧
      req.Method = "POST" ∧
      req.URL.Scheme = "https" ∧
      req.URL.Host = "fake-git-server.com" ∧
      req.Host = "fake-git-server.com" ∧
      req.URL.Path = "/repository.git/objects/batch" :=
  ⟨by decide,
    (getFromUpstream_request (testEnv false [] (.ok (originOK "1234")))
      (modifiedBatchRequest (testBatchRequest ["123", "1234"]) [requested "1234"])
      "/objects/batch" [("Content-Type", "application/vnd.git-lfs+json")]
      (World.init [] noMetrics)
      { Scheme := "https", Host := "fake-git-server.com", Path := "/repository.git/" }
      { Scheme := "", Host := "", Path := "/repository.git/objects/batch" } rfl rfl).elim
      fun req h => ⟨req, h.1, h.2.1, h.2.2.1, h.2.2.2.1, h.2.2.2.2.1, h.2.2.2.2.2.1,
        h.2.2.2.2.2.2.1⟩⟩

end LFSProxy
